import Mathlib

/-!
# Verification of the wimlib FUSE mount subsystem (src/mount_image.c)

Shallow embedding of the data model and operations of the WIM mount layer:
blob descriptors (`lookup_table_entry`), inodes with unnamed and alternate
data streams, per-inode open-handle slots, the staging layer
(`extract_resource_to_staging_dir`), the commit-pipeline rehash step
(`update_lte_of_staging_file`), the FUSE callbacks `read`, `truncate`,
`setxattr`, the daemon's `msg_unmount_request_handler` and the unmount
command's message loop.

Machine integers of the C source are modelled as `Nat`/`Int`; pointer
identity is modelled with arena-style integer ids; syscall and allocation
outcomes that the C reads from the environment (open/extract failures,
random staging names, fresh descriptor addresses) are passed in explicit
environment records.  Helper routines that live in repository files not
present under `src/` (`lookup_table.c`, `dentry.c`, `inode` helpers) are
modelled from the specification and marked as such in their doc comments.
-/

namespace Wimfs

/-- POSIX errno values used by the mount layer (from `<errno.h>`). -/
def ENOENT : Int := 2
def EIO : Int := 5
def EBADF : Int := 9
def ENOMEM : Int := 12
def EEXIST : Int := 17
def EMFILE : Int := 24
def ENODATA : Int := 61
def EOVERFLOW : Int := 75
def ENOTSUP : Int := 95

/-- `ENOATTR` is defined as `ENODATA` by `<attr/xattr.h>`. -/
def ENOATTR : Int := ENODATA

/-- `<attr/xattr.h>` flag for `setxattr`: pure create. -/
def XATTR_CREATE : Nat := 1
/-- `<attr/xattr.h>` flag for `setxattr`: pure replace. -/
def XATTR_REPLACE : Nat := 2

/-- Modelled from the spec (§6 Mount CLI): mount flag bits from `wimlib.h`,
which is not under `src/`; only bit distinctness matters to the claims. -/
def WIMLIB_MOUNT_FLAG_READWRITE : Nat := 1
def WIMLIB_MOUNT_FLAG_DEBUG : Nat := 2
def WIMLIB_MOUNT_FLAG_STREAM_INTERFACE_NONE : Nat := 4
def WIMLIB_MOUNT_FLAG_STREAM_INTERFACE_XATTR : Nat := 8
def WIMLIB_MOUNT_FLAG_STREAM_INTERFACE_WINDOWS : Nat := 16

/-- Modelled from the spec (§6 Unmount CLI): unmount flag bits from
`wimlib.h`, which is not under `src/`. -/
def WIMLIB_UNMOUNT_FLAG_CHECK_INTEGRITY : Nat := 1
def WIMLIB_UNMOUNT_FLAG_COMMIT : Nat := 2
def WIMLIB_UNMOUNT_FLAG_REBUILD : Nat := 4
def WIMLIB_UNMOUNT_FLAG_RECOMPRESS : Nat := 8

/-- Modelled from the spec (§6 Exit codes): `wimlib` library error codes
from `wimlib.h`, which is not under `src/`.  Only distinctness and being
nonzero matter to the claims; the stand-in values are arbitrary. -/
def WIMLIB_ERR_INVALID_UNMOUNT_MESSAGE : Int := 21
def WIMLIB_ERR_MQUEUE : Int := 27
def WIMLIB_ERR_TIMEOUT : Int := 42
def WIMLIB_ERR_FILESYSTEM_DAEMON_CRASHED : Int := 17
def WIMLIB_ERR_DELETE_STAGING_DIR : Int := 16
def WIMLIB_ERR_STAT : Int := 38
def WIMLIB_ERR_NOMEM : Int := 28

/-- `#define MSG_BREAK_LOOP -2` (mount_image.c line 56). -/
def MSG_BREAK_LOOP : Int := -2
/-- `#define MSG_VERSION_TOO_HIGH -1` (mount_image.c line 55). -/
def MSG_VERSION_TOO_HIGH : Int := -1

/-- A 20-byte blob digest.  Content digests are modelled as the content
itself (SHA-1 treated as injective); `random_hash` values placed on staged
entries are a separate constructor, so a synthetic digest can never equal a
content digest. -/
inductive Hash where
  | content (bytes : List Nat)
  | synthetic (n : Nat)
deriving DecidableEq, Repr

/-- `enum resource_location` restricted to the variants the mount layer
uses, each carrying the data the mount layer reads through it.
`inWim` carries the uncompressed bytes of the archived blob
(`wim_resource_size` is their length, `read_wim_resource` reads them);
staging and on-disk files carry the scratch-file name, whose bytes live in
`WimfsState.stagingFS`. -/
inductive ResourceLocation where
  | inWim (bytes : List Nat)
  | inStagingFile (name : Nat)
  | inAttachedBuffer (bytes : List Nat)
  | inFileOnDisk (name : Nat) (size : Nat)
deriving DecidableEq, Repr

/-- `struct lookup_table_entry` (blob descriptor).  `id` is the arena id
standing for pointer identity; `inTable` records whether the descriptor is
currently linked into the lookup table's hash index
(`lookup_table_insert` / `lookup_table_unlink`). -/
structure LookupTableEntry where
  id : Nat
  hash : Hash
  refcnt : Nat
  numOpenedFds : Nat
  inTable : Bool
  lteInode : Option Nat
  location : ResourceLocation
deriving DecidableEq, Repr

/-- `struct wimlib_fd`: an open handle on one stream of one inode.
`fLte` is the descriptor observed at open (or rebind) time; `stagingFd`
is the native scratch-file descriptor, `-1` when none is open. -/
structure WimlibFd where
  streamId : Nat
  fLte : Option Nat
  stagingFd : Int
deriving DecidableEq, Repr

/-- One alternate-data-stream slot of an inode (`struct ads_entry`).
Stream names are byte strings; they are modelled as lists of bytes. -/
structure AdsEntry where
  streamId : Nat
  name : List Nat
  lte : Option Nat
deriving DecidableEq, Repr

/-- `struct inode`: link count, the unnamed stream's descriptor, the
alternate data streams, and the open-handle slot array (`fds`, where
`none` is an empty slot). -/
structure Inode where
  id : Nat
  linkCount : Nat
  lte : Option Nat
  ads : List AdsEntry
  fds : List (Option WimlibFd)
deriving DecidableEq, Repr

/-- The mount-wide state the claims are about: the blob arena (all live
`lookup_table_entry` objects), the inode arena, the staging directory's
files (name and current bytes), and the context's `staging_list`. -/
structure WimfsState where
  entries : List LookupTableEntry
  inodes : List Inode
  stagingFS : List (Nat × List Nat)
  stagingList : List Nat
deriving DecidableEq, Repr

/-- Find a blob descriptor by arena id. -/
def getEntry (st : WimfsState) (eid : Nat) : Option LookupTableEntry :=
  st.entries.find? (fun e => e.id = eid)

/-- Find an inode by arena id. -/
def getInode (st : WimfsState) (iid : Nat) : Option Inode :=
  st.inodes.find? (fun i => i.id = iid)

/-- Current bytes of a staging-directory file. -/
def fsLookup (st : WimfsState) (name : Nat) : Option (List Nat) :=
  (st.stagingFS.find? (fun p => p.1 = name)).map (fun p => p.2)

/-- Apply `f` to the descriptor with id `eid`. -/
def updEntry (st : WimfsState) (eid : Nat)
    (f : LookupTableEntry → LookupTableEntry) : WimfsState :=
  { st with entries := st.entries.map (fun e => if e.id = eid then f e else e) }

/-- Apply `f` to the inode with id `iid`. -/
def updInode (st : WimfsState) (iid : Nat) (f : Inode → Inode) : WimfsState :=
  { st with inodes := st.inodes.map (fun i => if i.id = iid then f i else i) }

/-- Overwrite the bytes of staging file `name`. -/
def setFile (fs : List (Nat × List Nat)) (name : Nat) (bytes : List Nat) :
    List (Nat × List Nat) :=
  fs.map (fun p => if p.1 = name then (p.1, bytes) else p)

/-- `unlink` of a staging file. -/
def removeFile (fs : List (Nat × List Nat)) (name : Nat) : List (Nat × List Nat) :=
  fs.filter (fun p => p.1 ≠ name)

/-- `wim_resource_size`: the uncompressed size recorded for the resource.
The mount layer never consults it for a staged entry (the staging branch
of each caller uses the scratch file instead), so that arm returns 0. -/
def resSizeOf (_st : WimfsState) (e : LookupTableEntry) : Nat :=
  match e.location with
  | .inWim bytes => bytes.length
  | .inAttachedBuffer bytes => bytes.length
  | .inFileOnDisk _ size => size
  | .inStagingFile _ => 0

/-- The uncompressed bytes a read of the resource observes
(`read_wim_resource` / `extract_wim_resource_to_fd`). -/
def resContentOf (st : WimfsState) (e : LookupTableEntry) : List Nat :=
  match e.location with
  | .inWim bytes => bytes
  | .inAttachedBuffer bytes => bytes
  | .inFileOnDisk name _ => (fsLookup st name).getD []
  | .inStagingFile name => (fsLookup st name).getD []

/-!
## `wimfs_read` (mount_image.c lines 1745-1783)

The staged branch seeks the scratch fd and reads (`lseek`/`read`, so a
seek on an absent scratch fd fails with `EBADF`); the archive branch
rejects `offset > res_size` with `EOVERFLOW` and clips `size` to
`res_size - offset`.  The result is the byte count (or negative errno)
together with the bytes placed in the caller's buffer.
-/

def wimfs_read (st : WimfsState) (fd : Option WimlibFd) (size offset : Nat) :
    Int × List Nat :=
  match fd with
  | none => (-EBADF, [])
  | some f =>
    match f.fLte with
    | none => (0, [])  -- empty stream with no lookup table entry
    | some eid =>
      match getEntry st eid with
      | none => (- EIO, [])  -- model artifact: handles always observe live entries
      | some e =>
        match e.location with
        | .inStagingFile name =>
          if f.stagingFd = -1 then
            (-EBADF, [])  -- lseek on fd -1 fails
          else
            match fsLookup st name with
            | none => (- EIO, [])
            | some c =>
              let bytes := (c.drop offset).take size
              ((bytes.length : Int), bytes)
        | _ =>
          let resSize := resSizeOf st e
          if offset > resSize then
            (-EOVERFLOW, [])
          else
            let n := min size (resSize - offset)
            ((n : Int), ((resContentOf st e).drop offset).take n)

/-!
## `alloc_wimlib_fd` (mount_image.c lines 150-214), counting view

`fds_per_alloc = 8`, `max_fds = 0xffff`.  When every allocated slot is
occupied, the slot array grows by `min(8, max_fds - allocated)` unless the
cap is reached, in which case the open fails with `-EMFILE`.  The scan for
the first empty slot then succeeds because `opened < allocated`.  The
model tracks the two counters; `reallocOk`/`callocOk` are the allocation
outcomes. -/

def fds_per_alloc : Nat := 8
def max_fds : Nat := 0xffff

structure AllocFdResult where
  ret : Int
  numOpened : Nat
  numAllocated : Nat
deriving DecidableEq, Repr

def alloc_wimlib_fd (numOpened numAllocated : Nat)
    (reallocOk callocOk : Bool) : AllocFdResult :=
  if numOpened = numAllocated then
    if numAllocated = max_fds then
      ⟨-EMFILE, numOpened, numAllocated⟩
    else
      let numNew := min fds_per_alloc (max_fds - numAllocated)
      if reallocOk then
        if callocOk then
          ⟨0, numOpened + 1, numAllocated + numNew⟩
        else
          ⟨-ENOMEM, numOpened, numAllocated + numNew⟩
      else
        ⟨-ENOMEM, numOpened, numAllocated⟩
  else
    if callocOk then
      ⟨0, numOpened + 1, numAllocated⟩
    else
      ⟨-ENOMEM, numOpened, numAllocated⟩

/-!
## The staging layer: `extract_resource_to_staging_dir`
(mount_image.c lines 448-600)

Environment record for the outcomes the C code obtains from the operating
system: whether `create_staging_file` / the extract+`ftruncate`+`close`
sequence / each `open` of a scratch read fd succeeds (with the errno each
failure sets), the fresh random staging-file name, the address of the
descriptor a successful `new_lookup_table_entry()` returns (as an arena
id), the `random_hash` value, and the numbering of the scratch fds the
rebind loop opens. -/

structure StagingEnv where
  createOk : Bool
  createErrno : Int
  extractOk : Bool
  extractErrno : Int
  newLteOk : Bool
  openOk : List Bool
  openErrno : Int
  stagingName : Nat
  newEntryId : Nat
  synthHash : Nat
  fdBase : Nat
deriving DecidableEq, Repr

/-- Result of `extract_resource_to_staging_dir`: the return value, the
state after the call, the value left in the caller's `*lte`, and whether
every `wimlib_assert` evaluated during the run held. -/
structure StagingResult where
  ret : Int
  st : WimfsState
  lte : Option Nat
  assertsOk : Bool
deriving DecidableEq, Repr

/-- The loop at mount_image.c lines 541-557: walk the inode's fd slots;
every open handle on stream `sid` is pointed at the new descriptor
(`fd->f_lte = new_lte; new_lte->num_opened_fds++`) and then a scratch
read fd is opened for it; if that `open` fails the loop stops at once
(`goto out_revert_fd_changes`), with the failing handle already rebound
and holding `staging_fd == -1`.  `k` counts the handles processed so far
(it indexes `openOk` and numbers the scratch fds).  Returns the updated
slots, the final count (`new_lte->num_opened_fds`), the failure flag, and
whether the loop's `wimlib_assert`s (`fd->f_lte == old_lte`,
`fd->staging_fd == -1`) held. -/
def rebindFds (sid : Nat) (oldLte : Option Nat) (nid : Nat)
    (openOk : List Bool) (fdBase : Nat) :
    List (Option WimlibFd) → Nat → List (Option WimlibFd) × Nat × Bool × Bool
  | [], k => ([], k, false, true)
  | none :: rest, k =>
    let r := rebindFds sid oldLte nid openOk fdBase rest k
    (none :: r.1, r.2)
  | some fd :: rest, k =>
    if fd.streamId = sid then
      let aok := decide (fd.fLte = oldLte ∧ fd.stagingFd = -1)
      if openOk.getD k true then
        let fd' := { fd with fLte := some nid, stagingFd := ((fdBase + k : Nat) : Int) }
        let r := rebindFds sid oldLte nid openOk fdBase rest (k + 1)
        (some fd' :: r.1, r.2.1, r.2.2.1, aok && r.2.2.2)
      else
        let fd' := { fd with fLte := some nid, stagingFd := -1 }
        (some fd' :: rest, k + 1, true, aok)
    else
      let r := rebindFds sid oldLte nid openOk fdBase rest k
      (some fd :: r.1, r.2)

/-- The revert loop at mount_image.c lines 583-594: every handle on stream
`sid` whose descriptor pointer was changed to the new descriptor is pointed
back at the old one and its scratch fd (if any) is closed. -/
def revertFds (sid : Nat) (oldLte : Option Nat) (nid : Nat) :
    List (Option WimlibFd) → List (Option WimlibFd)
  | [] => []
  | none :: rest => none :: revertFds sid oldLte nid rest
  | some fd :: rest =>
    (if fd.streamId = sid ∧ fd.fLte = some nid then
      some { fd with fLte := oldLte, stagingFd := -1 }
    else
      some fd) :: revertFds sid oldLte nid rest

/-- mount_image.c lines 572-577: point the stream with id `sid` of inode
`iid` at descriptor `ptr` (`inode->lte = new_lte` for the unnamed stream,
otherwise the matching `ads_entries[i].lte`). -/
def setStreamPtr (st : WimfsState) (iid sid : Nat) (ptr : Option Nat) : WimfsState :=
  updInode st iid (fun ino =>
    if sid = 0 then
      { ino with lte := ptr }
    else
      { ino with ads := ino.ads.map (fun a =>
          if a.streamId = sid then { a with lte := ptr } else a) })

/-- Number of occupied fd slots open on stream `sid`. -/
def countStreamFds (sid : Nat) (fds : List (Option WimlibFd)) : Nat :=
  (fds.filterMap id).countP (fun fd => fd.streamId = sid)

/-- `extract_resource_to_staging_dir` (mount_image.c lines 448-600).

`lte` is the caller's in/out descriptor pointer for the stream being
staged; `size` is the number of bytes of the stream to materialize (zero
padded via `ftruncate` beyond the extracted prefix).  On success a scratch
file carrying the (possibly truncated, possibly padded) content exists,
the stream's descriptor is a staged one whose `refcnt` equals the inode's
link count, and — when the old descriptor was shared — the old descriptor
stays behind with `refcnt` lowered by the link count.  On any failure the
partially performed steps are undone in reverse. -/
def extract_resource_to_staging_dir (st : WimfsState) (iid sid : Nat)
    (lte : Option Nat) (size : Nat) (env : StagingEnv) : StagingResult :=
  let oldLte := lte
  -- wimlib_assert(old_lte == NULL || old_lte->resource_location != RESOURCE_IN_STAGING_FILE)
  let assert1 :=
    match oldLte.bind (getEntry st) with
    | some e =>
      match e.location with
      | .inStagingFile _ => false
      | _ => true
    | none => true
  match getInode st iid with
  | none => ⟨- EIO, st, oldLte, false⟩  -- model artifact: the C caller passes a live inode
  | some ino =>
    if env.createOk then
      let name := env.stagingName
      let old := oldLte.bind (getEntry st)
      let extractSize :=
        match old with
        | some e => min (resSizeOf st e) size
        | none => 0
      if env.extractOk then
        let content :=
          (match old with
           | some e => (resContentOf st e).take extractSize
           | none => []) ++ List.replicate (size - extractSize) 0
        let st1 := { st with stagingFS := st.stagingFS ++ [(name, content)] }
        match old with
        | some o =>
          if ino.linkCount = o.refcnt then
            -- Re-use the existing lookup table entry: unlink it from the
            -- index and convert it in place into the staged descriptor.
            -- No handle is touched and no scratch read fd is opened here.
            let st2 := updEntry st1 o.id (fun e =>
              { e with refcnt := ino.linkCount,
                       location := .inStagingFile name,
                       lteInode := some iid,
                       hash := .synthetic env.synthHash,
                       inTable := true })
            let st3 := setStreamPtr st2 iid sid (some o.id)
            let st4 := { st3 with stagingList := o.id :: st3.stagingList }
            ⟨0, st4, some o.id, assert1⟩
          else
            -- Split: wimlib_assert(old_lte->refcnt > inode->link_count)
            let assert2 := decide (o.refcnt > ino.linkCount)
            if env.newLteOk then
              let r := rebindFds sid oldLte env.newEntryId env.openOk env.fdBase ino.fds 0
              let assertsOk := assert1 && assert2 && r.2.2.2
              if r.2.2.1 then
                -- a scratch-fd open failed: revert handles, free the new
                -- descriptor, unlink the staging file
                let fds' := revertFds sid oldLte env.newEntryId r.1
                let st2 := updInode st1 iid (fun i => { i with fds := fds' })
                let st3 := { st2 with stagingFS := removeFile st2.stagingFS name }
                ⟨-env.openErrno, st3, oldLte, assertsOk⟩
              else
                let cnt := r.2.1
                let st2 := updInode st1 iid (fun i => { i with fds := r.1 })
                let st3 := updEntry st2 o.id (fun e =>
                  { e with numOpenedFds := e.numOpenedFds - cnt,
                           refcnt := e.refcnt - ino.linkCount })
                let newE : LookupTableEntry :=
                  { id := env.newEntryId, hash := .synthetic env.synthHash,
                    refcnt := ino.linkCount, numOpenedFds := cnt,
                    inTable := true, lteInode := some iid,
                    location := .inStagingFile name }
                let st4 := { st3 with entries := st3.entries ++ [newE] }
                let st5 := setStreamPtr st4 iid sid (some env.newEntryId)
                let st6 := { st5 with stagingList := env.newEntryId :: st5.stagingList }
                ⟨0, st6, some env.newEntryId, assertsOk⟩
            else
              let st2 := { st1 with stagingFS := removeFile st1.stagingFS name }
              ⟨-ENOMEM, st2, oldLte, assert1 && assert2⟩
        | none =>
          -- no old entry: fresh descriptor, rebind any handles already
          -- open on the (empty) stream
          if env.newLteOk then
            let r := rebindFds sid oldLte env.newEntryId env.openOk env.fdBase ino.fds 0
            let assertsOk := assert1 && r.2.2.2
            if r.2.2.1 then
              let fds' := revertFds sid oldLte env.newEntryId r.1
              let st2 := updInode st1 iid (fun i => { i with fds := fds' })
              let st3 := { st2 with stagingFS := removeFile st2.stagingFS name }
              ⟨-env.openErrno, st3, oldLte, assertsOk⟩
            else
              let cnt := r.2.1
              let st2 := updInode st1 iid (fun i => { i with fds := r.1 })
              let newE : LookupTableEntry :=
                { id := env.newEntryId, hash := .synthetic env.synthHash,
                  refcnt := ino.linkCount, numOpenedFds := cnt,
                  inTable := true, lteInode := some iid,
                  location := .inStagingFile name }
              let st3 := { st2 with entries := st2.entries ++ [newE] }
              let st4 := setStreamPtr st3 iid sid (some env.newEntryId)
              let st5 := { st4 with stagingList := env.newEntryId :: st4.stagingList }
              ⟨0, st5, some env.newEntryId, assertsOk⟩
          else
            let st2 := { st1 with stagingFS := removeFile st1.stagingFS name }
            ⟨-ENOMEM, st2, oldLte, assert1⟩
      else
        -- extract/ftruncate/close failed: the staging file (created with
        -- O_CREAT|O_TRUNC, partially written) is unlinked again
        let st1 := { st with stagingFS := st.stagingFS ++ [(env.stagingName, [])] }
        let st2 := { st1 with stagingFS := removeFile st1.stagingFS env.stagingName }
        ⟨-env.extractErrno, st2, oldLte, assert1⟩
    else
      ⟨-env.createErrno, st, oldLte, assert1⟩

/-!
## `wimfs_truncate` (mount_image.c lines 2059-2095)

`lookup_resource` has already resolved the path to the inode, the stream
and its (possibly absent) descriptor; `wimfs_truncate` receives those
results here.  When the descriptor is absent and `size` is nonzero the C
code evaluates `lte->resource_location` on a null pointer; that outcome is
the distinguished result `nullDeref`. -/

inductive TruncResult where
  | ok (ret : Int) (st : WimfsState)
  | nullDeref
deriving DecidableEq, Repr

/-- Bytes of a file after `truncate(name, size)`: shrunk, or zero-extended. -/
def truncBytes (c : List Nat) (size : Nat) : List Nat :=
  c.take size ++ List.replicate (size - c.length) 0

def wimfs_truncate (st : WimfsState) (iid sid : Nat) (lte : Option Nat)
    (size : Nat) (env : StagingEnv) : TruncResult :=
  if lte = none ∧ size = 0 then
    .ok 0 st
  else
    match lte with
    | none => .nullDeref  -- lte->resource_location dereferences a null pointer
    | some eid =>
      match getEntry st eid with
      | none => .nullDeref  -- model artifact: a resolved stream's entry is live
      | some e =>
        match e.location with
        | .inStagingFile name =>
          match fsLookup st name with
          | some c =>
            .ok 0 { st with stagingFS := setFile st.stagingFS name (truncBytes c size) }
          | none => .ok (-ENOENT) st  -- truncate(2) fails on a missing file
        | _ =>
          match extract_resource_to_staging_dir st iid sid lte size env with
          | r => .ok r.ret r.st

/-!
## `wimfs_setxattr` (mount_image.c lines 1969-2033) and helpers
-/

/-- Modelled from the spec: `lte_decrement_refcnt` lives in
`lookup_table.c`, which is not under `src/`.  Per §4.5 (`unlink`) and
invariant 2 of §3: the blob's refcount drops by one, and a blob whose
refcount reaches zero with no open fds is removed from the store (its
scratch file, if staged, is unlinked). -/
def lte_decrement_refcnt (st : WimfsState) (eid : Nat) : WimfsState :=
  match getEntry st eid with
  | none => st
  | some e =>
    if e.refcnt ≤ 1 ∧ e.numOpenedFds = 0 then
      let st1 :=
        match e.location with
        | .inStagingFile name => { st with stagingFS := removeFile st.stagingFS name }
        | _ => st
      { st1 with entries := st1.entries.filter (fun x => x.id ≠ eid) }
    else
      updEntry st eid (fun x => { x with refcnt := x.refcnt - 1 })

/-- Modelled from the spec: `inode_remove_ads` lives in `inode.c`, which is
not under `src/`.  Per §4.5 `unlink`/`removexattr`: the ADS at index `idx`
is removed from the inode and its blob's refcount is decremented. -/
def inode_remove_ads (st : WimfsState) (iid idx : Nat) : WimfsState :=
  match getInode st iid with
  | none => st
  | some ino =>
    match ino.ads.get? idx with
    | none => st
    | some a =>
      let st1 :=
        match a.lte with
        | some eid => lte_decrement_refcnt st eid
        | none => st
      updInode st1 iid (fun i => { i with ads := i.ads.eraseIdx idx })

/-- Modelled from the spec: `inode_add_ads` lives in `inode.c`, which is
not under `src/`.  Per §3, a new alternate data stream is appended with a
fresh stable `stream_id` and no blob yet. -/
def inode_add_ads (st : WimfsState) (iid : Nat) (name : List Nat) : WimfsState :=
  updInode st iid (fun i =>
    let freshId := 1 + (i.ads.map (fun a => a.streamId)).foldr max 0
    { i with ads := i.ads ++ [⟨freshId, name, none⟩] })

/-- Index of the ADS named `name` (`inode_get_ads_entry`). -/
def findAdsIdx (ino : Inode) (name : List Nat) : Option Nat :=
  ino.ads.findIdx? (fun a => a.name = name)

/-- `__lookup_resource`: search the lookup table's index by digest; only
descriptors currently linked into the index are found. -/
def lookupResource (st : WimfsState) (h : Hash) : Option LookupTableEntry :=
  st.entries.find? (fun e => e.inTable ∧ e.hash = h)

/-- The bytes of the `"user."` xattr namespace (`'u' 's' 'e' 'r' '.'`). -/
def userDot : List Nat := [117, 115, 101, 114, 46]

/-- `wimfs_setxattr` (mount_image.c lines 1969-2033).  The path has been
resolved to inode `iid` (`wim_pathname_to_inode`); `newEntryId` is the
arena id of the descriptor a `new_lookup_table_entry()` call would
return.  A fresh descriptor starts with `refcnt = 1`: modelled from the
spec for `new_lookup_table_entry` (in `lookup_table.c`, not under `src/`),
which creates a blob carrying its single new reference; the C code's
existing-blob branch `lte->refcnt++` is taken verbatim from the source. -/
def wimfs_setxattr (st : WimfsState) (mountFlags : Nat) (iid : Nat)
    (name : List Nat) (value : List Nat) (flags : Nat) (newEntryId : Nat) :
    Int × WimfsState :=
  if mountFlags &&& WIMLIB_MOUNT_FLAG_STREAM_INTERFACE_XATTR = 0 then
    (-ENOTSUP, st)
  else if name.length < 5 ∨ name.take 5 ≠ userDot then
    (-ENOATTR, st)
  else
    let sname := name.drop 5
    match getInode st iid with
    | none => (-ENOENT, st)
    | some ino =>
      let afterRemove :=
        match findAdsIdx ino sname with
        | some idx =>
          if flags &&& XATTR_CREATE ≠ 0 then none
          else some (inode_remove_ads st iid idx)
        | none =>
          if flags &&& XATTR_REPLACE ≠ 0 then none
          else some st
      match findAdsIdx ino sname, afterRemove with
      | some _, none => (-EEXIST, st)
      | none, none => (-ENOATTR, st)
      | _, some st1 =>
        let st2 := inode_add_ads st1 iid sname
        let valueHash := Hash.content value
        let (lteId, st3) :=
          match lookupResource st2 valueHash with
          | some existing =>
            (existing.id, updEntry st2 existing.id (fun e => { e with refcnt := e.refcnt + 1 }))
          | none =>
            let newE : LookupTableEntry :=
              { id := newEntryId, hash := valueHash, refcnt := 1,
                numOpenedFds := 0, inTable := true, lteInode := none,
                location := .inAttachedBuffer value }
            (newEntryId, { st2 with entries := st2.entries ++ [newE] })
        -- new_ads_entry->lte = lte: the ADS just appended gets the blob
        let st4 := updInode st3 iid (fun i =>
          { i with ads :=
              match i.ads.getLast? with
              | some lastA => i.ads.dropLast ++ [{ lastA with lte := some lteId }]
              | none => i.ads })
        (0, st4)

/-!
## The blob reference-count invariant (spec §3 invariant 1, §8)

`B.refcnt == Σ_in inode.link_count` over the inode-stream edges that point
at `B`: every stream of an inode that references `B` contributes that
inode's link count.
-/

/-- Number of streams of inode `i` that reference descriptor `eid`. -/
def streamRefs (i : Inode) (eid : Nat) : Nat :=
  (if i.lte = some eid then 1 else 0) +
    (i.ads.filter (fun a => a.lte = some eid)).length

/-- The sum, over all inodes, of `link_count` for each stream edge into
descriptor `eid`. -/
def refSum (st : WimfsState) (eid : Nat) : Nat :=
  (st.inodes.map (fun i => streamRefs i eid * i.linkCount)).sum

/-- Decidable form of invariant 1: every descriptor's `refcnt` equals the
link-count-weighted number of stream edges into it. -/
def blobRefInvariant (st : WimfsState) : Bool :=
  st.entries.all (fun e => e.refcnt = refSum st e.id)

/-!
## Commit pipeline, rehash step: `update_lte_of_staging_file`
(mount_image.c lines 711-749) with `inode_update_lte_ptr` (lines 695-709)
-/

/-- `inode_update_lte_ptr`: in the owning inode, rewrite the stream pointer
that referenced `oldId` so that it references `ptr` — the unnamed stream if
it matches, otherwise the *first* matching ADS (the C loop breaks). -/
def replaceFirstAds (ads : List AdsEntry) (oldId : Nat) (ptr : Option Nat) :
    List AdsEntry :=
  match ads with
  | [] => []
  | a :: rest =>
    if a.lte = some oldId then { a with lte := ptr } :: rest
    else a :: replaceFirstAds rest oldId ptr

def inode_update_lte_ptr (st : WimfsState) (iidOpt : Option Nat) (oldId : Nat)
    (ptr : Option Nat) : WimfsState :=
  match iidOpt with
  | none => st  -- model artifact: staged descriptors carry their owner inode
  | some iid =>
    updInode st iid (fun ino =>
      if ino.lte = some oldId then { ino with lte := ptr }
      else { ino with ads := replaceFirstAds ino.ads oldId ptr })

/-- `update_lte_of_staging_file`: hash the scratch file, unlink the staged
descriptor from the index, then merge into an existing descriptor with the
same digest, or detach the stream if the file is empty, or re-key the
descriptor under the real digest with `location = in_file_on_disk` and the
file's size recorded. -/
def update_lte_of_staging_file (st : WimfsState) (eid : Nat) : Int × WimfsState :=
  match getEntry st eid with
  | none => (WIMLIB_ERR_STAT, st)  -- model artifact: the pipeline passes live staged entries
  | some lte =>
    match lte.location with
    | .inStagingFile name =>
      match fsLookup st name with
      | none => (WIMLIB_ERR_STAT, st)  -- sha1sum cannot open the scratch file
      | some bytes =>
        let h := Hash.content bytes
        let st1 := updEntry st eid (fun e => { e with inTable := false })
        match lookupResource st1 h with
        | some dup =>
          -- merge duplicate lookup table entries
          let st2 := updEntry st1 dup.id (fun e => { e with refcnt := e.refcnt + lte.refcnt })
          let st3 := inode_update_lte_ptr st2 lte.lteInode eid (some dup.id)
          (0, { st3 with entries := st3.entries.filter (fun x => x.id ≠ eid) })
        | none =>
          if bytes.length = 0 then
            -- zero-length stream: no lookup table entry needed
            let st2 := inode_update_lte_ptr st1 lte.lteInode eid none
            (0, { st2 with entries := st2.entries.filter (fun x => x.id ≠ eid) })
          else
            (0, updEntry st1 eid (fun e =>
              { e with location := .inFileOnDisk name bytes.length,
                       hash := h, inTable := true }))
    | _ => (WIMLIB_ERR_STAT, st)  -- model artifact: only staged entries are rehashed

/-!
## Daemon side of the unmount protocol: `msg_unmount_request_handler`
(mount_image.c lines 1085-1140)

`sizeof(struct msg_unmount_request)` is 20 bytes (16-byte packed header
plus `u32 unmount_flags`).  `rebuild_wim` (the commit pipeline) and
`delete_staging_dir` are invoked as opaque operations whose results come
from the environment, and the model records which of the handler's
side effects actually ran.
-/

def sizeof_msg_unmount_request : Nat := 20

structure UnmountReqEnv where
  sendInfoOk : Bool
  rebuildRet : Int
  deleteRet : Int
deriving DecidableEq, Repr

structure UnmountReqResult where
  sentDaemonInfo : Bool
  ranCommit : Bool
  ranDeleteStaging : Bool
  finishedStatus : Int
  ret : Int
deriving DecidableEq, Repr

/-- The `out:` label (mount_image.c lines 1129-1139): for a read-write
mount the staging directory is deleted, and a deletion error becomes the
status only when the status so far is zero; then `UNMOUNT_FINISHED(status)`
is sent and the handler returns `MSG_BREAK_LOOP`. -/
def unmountRequestOut (rw : Bool) (status : Int) (sentInfo ranCommit : Bool)
    (env : UnmountReqEnv) : UnmountReqResult :=
  let status' :=
    if rw ∧ env.deleteRet ≠ 0 ∧ status = 0 then env.deleteRet else status
  ⟨sentInfo, ranCommit, rw, status', MSG_BREAK_LOOP⟩

def msg_unmount_request_handler (msgSize unmountFlags mountFlags : Nat)
    (env : UnmountReqEnv) : UnmountReqResult :=
  let rw := mountFlags &&& WIMLIB_MOUNT_FLAG_READWRITE ≠ 0
  if msgSize < sizeof_msg_unmount_request then
    unmountRequestOut rw WIMLIB_ERR_INVALID_UNMOUNT_MESSAGE false false env
  else if ¬ env.sendInfoOk then
    unmountRequestOut rw WIMLIB_ERR_MQUEUE false false env
  else if rw ∧ unmountFlags &&& WIMLIB_UNMOUNT_FLAG_COMMIT ≠ 0 then
    unmountRequestOut rw env.rebuildRet true true env
  else
    unmountRequestOut rw 0 true false env

/-!
## Unmount-command side: the message loop
(mount_image.c: `message_loop` lines 1268-1307, `receive_message` lines
1225-1266, `unmount_timed_out_cb` lines 1170-1194, `msg_daemon_info_handler`
lines 1142-1156, `msg_unmount_finished_handler` lines 1158-1168,
`wimlib_unmount_image` lines 2451-2495)

Each entry of the event trace is what one `mq_timedreceive` produced: a
timeout (together with what a `kill(pid, 0)` probe at that instant would
report), a message of one of the two handled types (with whether its
declared `msg_size` covers the struct), a message whose `min_version`
exceeds this build, or a malformed/unhandled message.
-/

/-- Outcome a `kill(daemon_pid, 0)` probe would observe: the process
exists, the process is gone (`ESRCH`), or another error. -/
inductive ProbeOutcome where
  | alive
  | gone
  | err
deriving DecidableEq, Repr

inductive UEvent where
  | timeout (probe : ProbeOutcome)
  | daemonInfo (sizeOk : Bool) (pid : Nat) (mountFlags : Nat)
  | unmountFinished (sizeOk : Bool) (status : Int)
  | versionTooHigh
  | badMessage
deriving DecidableEq, Repr

/-- `struct msg_handler_context` as the unmount command uses it:
`timeout_seconds` starts at 5, `daemon_pid` at 0. -/
structure ULoopState where
  timeoutSeconds : Nat
  daemonPid : Nat
  mountFlags : Nat
  status : Int
deriving DecidableEq, Repr

def unmountLoopInit : ULoopState := ⟨5, 0, 0, 0⟩

inductive UStep where
  | next (s : ULoopState)
  | stop (ret : Int) (s : ULoopState)
deriving DecidableEq, Repr

/-- One iteration of `message_loop` on the unmount side: dispatch of the
received event through `receive_message`, the registered handlers and
`unmount_timed_out_cb`.  The second component lists the pids probed with
signal 0 during the iteration. -/
def unmountStep (s : ULoopState) (e : UEvent) : UStep × List Nat :=
  match e with
  | .timeout probe =>
    if s.daemonPid = 0 then
      -- no DAEMON_INFO yet: break with DAEMON_CRASHED without probing
      (.stop WIMLIB_ERR_FILESYSTEM_DAEMON_CRASHED s, [])
    else
      match probe with
      | .alive => (.next s, [s.daemonPid])       -- keep waiting
      | .gone => (.stop WIMLIB_ERR_FILESYSTEM_DAEMON_CRASHED s, [s.daemonPid])
      | .err => (.stop WIMLIB_ERR_MQUEUE s, [s.daemonPid])
  | .daemonInfo sizeOk pid mf =>
    if sizeOk then
      (.next { s with daemonPid := pid, mountFlags := mf, timeoutSeconds := 1 }, [])
    else
      (.stop WIMLIB_ERR_INVALID_UNMOUNT_MESSAGE s, [])
  | .unmountFinished sizeOk status =>
    if sizeOk then
      (.stop 0 { s with status := status }, [])
    else
      (.stop WIMLIB_ERR_INVALID_UNMOUNT_MESSAGE s, [])
  | .versionTooHigh => (.next s, [])
  | .badMessage => (.stop WIMLIB_ERR_INVALID_UNMOUNT_MESSAGE s, [])

structure ULoopOut where
  ret : Option Int    -- `none`: the trace ended with the loop still waiting
  state : ULoopState
  probes : List Nat   -- pids probed with signal 0, in order
  waits : List Nat    -- `timeout_seconds` used by each receive, in order
deriving DecidableEq, Repr

def unmountMessageLoop : List UEvent → ULoopState → ULoopOut
  | [], s => ⟨none, s, [], []⟩
  | e :: rest, s =>
    match unmountStep s e with
    | (.next s', pr) =>
      let o := unmountMessageLoop rest s'
      ⟨o.ret, o.state, pr ++ o.probes, s.timeoutSeconds :: o.waits⟩
    | (.stop r s', pr) => ⟨some r, s', pr, [s.timeoutSeconds]⟩

/-- The tail of `wimlib_unmount_image`: run the loop; when `message_loop`
returns 0 the overall result is the `status` carried by the
`UNMOUNT_FINISHED` message. -/
def unmountImageResult (events : List UEvent) : Option Int :=
  let o := unmountMessageLoop events unmountLoopInit
  match o.ret with
  | some 0 => some o.state.status
  | r => r

/-!
## Concrete states used by the counterexamples and witnesses
-/

/-- A staging environment in which every operating-system step succeeds:
staging file 100 is created, descriptor arena id 50 is handed out by the
allocator, the synthetic digest is 999, scratch fds are numbered from 40. -/
def allOkEnv : StagingEnv :=
  ⟨true, 5, true, 5, true, [], 5, 100, 50, 999, 40⟩

/-- Image with a triply hard-linked file: inode 1 (`link_count = 3`) holds
blob 0 as its unnamed stream; inode 2 (one link) holds blob 1 (bytes `[7]`,
`refcnt = 1`) as its unnamed stream. -/
def linkedDemoState : WimfsState :=
  { entries :=
      [ ⟨0, .content [9], 3, 0, true, none, .inWim [9]⟩,
        ⟨1, .content [7], 1, 0, true, none, .inWim [7]⟩ ],
    inodes :=
      [ ⟨1, 3, some 0, [], []⟩,
        ⟨2, 1, some 1, [], []⟩ ],
    stagingFS := [], stagingList := [] }

/-- One single-link inode whose unnamed stream is the archived blob 0
(`refcnt = 1`), with one handle already open read-only on that stream
(`f_lte` = blob 0, no scratch fd). -/
def reuseDemoState : WimfsState :=
  { entries := [ ⟨0, .content [5], 1, 1, true, none, .inWim [5]⟩ ],
    inodes := [ ⟨1, 1, some 0, [], [some ⟨0, some 0, -1⟩]⟩ ],
    stagingFS := [], stagingList := [] }

/-- One single-link inode whose unnamed stream is the archived blob 0 of
one byte, no open handles. -/
def truncDemoState : WimfsState :=
  { entries := [ ⟨0, .content [9], 1, 0, true, none, .inWim [9]⟩ ],
    inodes := [ ⟨1, 1, some 0, [], []⟩ ],
    stagingFS := [], stagingList := [] }

/-- One single-link inode whose unnamed stream is the archived two-byte
blob 0, with one handle open read-only on it. -/
def truncDemoState2 : WimfsState :=
  { entries := [ ⟨0, .content [5, 6], 1, 0, true, none, .inWim [5, 6]⟩ ],
    inodes := [ ⟨1, 1, some 0, [], [some ⟨0, some 0, -1⟩]⟩ ],
    stagingFS := [], stagingList := [] }

/-- Two single-link inodes sharing archived blob 0 (`refcnt = 2`); inode 1
has one handle open read-only on the shared stream. -/
def sharedFdDemoState : WimfsState :=
  { entries := [ ⟨0, .content [5], 2, 0, true, none, .inWim [5]⟩ ],
    inodes := [ ⟨1, 1, some 0, [], [some ⟨0, some 0, -1⟩]⟩, ⟨2, 1, some 0, [], []⟩ ],
    stagingFS := [], stagingList := [] }

/-- Environment in which the scratch-fd `open` of the first rebound
handle fails with errno 13. -/
def openFailEnv : StagingEnv :=
  ⟨true, 5, true, 5, true, [false], 13, 100, 50, 999, 40⟩

/-- One inode whose resolved stream has no lookup table entry (an empty
stream loaded from the archive). -/
def emptyStreamDemoState : WimfsState :=
  { entries := [], inodes := [⟨1, 1, none, [], []⟩],
    stagingFS := [], stagingList := [] }

/-- A staged blob (descriptor 1, scratch file 100 holding `[7]`) owned by
inode 1, alongside an archived descriptor 0 whose digest equals the
scratch file's digest. -/
def stagedDemoState : WimfsState :=
  { entries :=
      [ ⟨0, .content [7], 1, 0, true, none, .inWim [7]⟩,
        ⟨1, .synthetic 999, 1, 0, true, some 1, .inStagingFile 100⟩ ],
    inodes := [ ⟨1, 1, some 1, [], []⟩ ],
    stagingFS := [(100, [7])], stagingList := [1] }

/-!
## Helper lemmas about the state getters and updaters
-/

theorem list_map_id_of {α : Type} {f : α → α} :
    ∀ {l : List α}, (∀ x ∈ l, f x = x) → l.map f = l
  | [], _ => rfl
  | x :: xs, h => by
    simp only [List.map_cons]
    rw [h x (List.mem_cons_self x xs), list_map_id_of (fun y hy => h y (List.mem_cons_of_mem x hy))]

theorem getEntry_updEntry (st : WimfsState) (tid j : Nat)
    (f : LookupTableEntry → LookupTableEntry) (hf : ∀ e, (f e).id = e.id) :
    getEntry (updEntry st tid f) j =
      (getEntry st j).map (fun e => if e.id = tid then f e else e) := by
  unfold getEntry updEntry
  have hp : (fun e => decide (e.id = j)) ∘ (fun e : LookupTableEntry => if e.id = tid then f e else e)
      = (fun e => decide (e.id = j)) := by
    funext e
    by_cases h : e.id = tid <;> simp [h, hf]
  rw [List.find?_map, hp]

theorem getInode_updInode (st : WimfsState) (tid j : Nat)
    (f : Inode → Inode) (hf : ∀ i, (f i).id = i.id) :
    getInode (updInode st tid f) j =
      (getInode st j).map (fun i => if i.id = tid then f i else i) := by
  unfold getInode updInode
  have hp : (fun i => decide (i.id = j)) ∘ (fun i : Inode => if i.id = tid then f i else i)
      = (fun i => decide (i.id = j)) := by
    funext i
    by_cases h : i.id = tid <;> simp [h, hf]
  rw [List.find?_map, hp]

theorem getInode_id {st : WimfsState} {iid : Nat} {ino : Inode}
    (h : getInode st iid = some ino) : ino.id = iid := by
  unfold getInode at h
  have h2 := List.find?_some h
  exact of_decide_eq_true h2

theorem getInode_mem {st : WimfsState} {iid : Nat} {ino : Inode}
    (h : getInode st iid = some ino) : ino ∈ st.inodes := by
  unfold getInode at h
  exact List.mem_of_find?_eq_some h

theorem getEntry_id {st : WimfsState} {eid : Nat} {e : LookupTableEntry}
    (h : getEntry st eid = some e) : e.id = eid := by
  unfold getEntry at h
  have h2 := List.find?_some h
  exact of_decide_eq_true h2

theorem getEntry_mem {st : WimfsState} {eid : Nat} {e : LookupTableEntry}
    (h : getEntry st eid = some e) : e ∈ st.entries := by
  unfold getEntry at h
  exact List.mem_of_find?_eq_some h

theorem getInode_updInode_self {st : WimfsState} {iid : Nat} {ino : Inode}
    (h : getInode st iid = some ino) (f : Inode → Inode) (hf : ∀ i, (f i).id = i.id) :
    getInode (updInode st iid f) iid = some (f ino) := by
  rw [getInode_updInode st iid iid f hf, h, Option.map_some']
  rw [if_pos (getInode_id h)]

theorem getInode_updInode_ne {st : WimfsState} {iid j : Nat}
    (hj : j ≠ iid) (f : Inode → Inode) (hf : ∀ i, (f i).id = i.id) :
    getInode (updInode st iid f) j = getInode st j := by
  rw [getInode_updInode st iid j f hf]
  cases h : getInode st j with
  | none => rfl
  | some i =>
    simp only [Option.map]
    rw [if_neg]
    rw [getInode_id h]
    exact hj

theorem getEntry_updEntry_self {st : WimfsState} {eid : Nat} {e : LookupTableEntry}
    (h : getEntry st eid = some e) (f : LookupTableEntry → LookupTableEntry)
    (hf : ∀ x, (f x).id = x.id) :
    getEntry (updEntry st eid f) eid = some (f e) := by
  rw [getEntry_updEntry st eid eid f hf, h, Option.map_some']
  rw [if_pos (getEntry_id h)]

theorem getEntry_updEntry_ne {st : WimfsState} {eid j : Nat}
    (hj : j ≠ eid) (f : LookupTableEntry → LookupTableEntry)
    (hf : ∀ x, (f x).id = x.id) :
    getEntry (updEntry st eid f) j = getEntry st j := by
  rw [getEntry_updEntry st eid j f hf]
  cases h : getEntry st j with
  | none => rfl
  | some e =>
    simp only [Option.map]
    rw [if_neg]
    rw [getEntry_id h]
    exact hj

theorem getEntry_none_of_fresh {st : WimfsState} {nid : Nat}
    (h : ∀ e ∈ st.entries, e.id ≠ nid) : getEntry st nid = none := by
  unfold getEntry
  rw [List.find?_eq_none]
  intro e he
  simpa using h e he

theorem setFile_id {fs : List (Nat × List Nat)} {name : Nat} {c : List Nat}
    (h : ∀ p ∈ fs, p.1 = name → p.2 = c) : setFile fs name c = fs := by
  unfold setFile
  apply list_map_id_of
  intro p hp
  by_cases hn : p.1 = name
  · rw [if_pos hn]
    have h2 := h p hp hn
    cases p
    simp_all
  · rw [if_neg hn]

theorem removeFile_append_fresh {fs : List (Nat × List Nat)} {name : Nat} {c : List Nat}
    (h : ∀ p ∈ fs, p.1 ≠ name) :
    removeFile (fs ++ [(name, c)]) name = fs := by
  unfold removeFile
  rw [List.filter_append]
  have h1 : List.filter (fun p : Nat × List Nat => decide (p.1 ≠ name)) [(name, c)] = [] := by
    simp
  have h2 : List.filter (fun p : Nat × List Nat => decide (p.1 ≠ name)) fs = fs :=
    List.filter_eq_self.mpr (fun p hp => by simpa using h p hp)
  rw [h1, h2, List.append_nil]

theorem find?_fst_append_fresh {fs : List (Nat × List Nat)} {name : Nat} {c : List Nat}
    (h : ∀ p ∈ fs, p.1 ≠ name) :
    (fs ++ [(name, c)]).find? (fun p => p.1 = name) = some (name, c) := by
  rw [List.find?_append]
  have h1 : fs.find? (fun p : Nat × List Nat => decide (p.1 = name)) = none :=
    List.find?_eq_none.mpr (fun p hp => by simpa using h p hp)
  rw [h1]
  simp

theorem truncBytes_self (c : List Nat) : truncBytes c c.length = c := by
  unfold truncBytes
  simp

theorem countStreamFds_nil (sid : Nat) : countStreamFds sid [] = 0 := rfl

theorem countStreamFds_cons_none (sid : Nat) (rest : List (Option WimlibFd)) :
    countStreamFds sid (none :: rest) = countStreamFds sid rest := by
  simp [countStreamFds]

theorem countStreamFds_cons_some (sid : Nat) (fd : WimlibFd)
    (rest : List (Option WimlibFd)) :
    countStreamFds sid (some fd :: rest) =
      countStreamFds sid rest + (if fd.streamId = sid then 1 else 0) := by
  simp [countStreamFds, List.countP_cons]

theorem updInode_id_of {st : WimfsState} {iid : Nat} {f : Inode → Inode}
    (h : ∀ i ∈ st.inodes, i.id = iid → f i = i) : updInode st iid f = st := by
  unfold updInode
  have h2 : st.inodes.map (fun i => if i.id = iid then f i else i) = st.inodes := by
    apply list_map_id_of
    intro i hi
    by_cases hid : i.id = iid
    · rw [if_pos hid]
      exact h i hi hid
    · rw [if_neg hid]
  rw [h2]

/-!
## Lemmas about the rebind and revert loops of the staging layer
-/

theorem rebindFds_ok_noFail {sid : Nat} {oldLte : Option Nat} {nid base : Nat}
    {oks : List Bool} (hok : ∀ m, oks.getD m true = true) :
    ∀ (fds : List (Option WimlibFd)) (k : Nat),
      (rebindFds sid oldLte nid oks base fds k).2.2.1 = false := by
  intro fds
  induction fds with
  | nil => intro k; rfl
  | cons slot rest ih =>
    intro k
    cases slot with
    | none =>
      simp only [rebindFds]
      exact ih k
    | some fd =>
      simp only [rebindFds]
      by_cases h : fd.streamId = sid
      · rw [if_pos h, hok k]
        simp only [if_true]
        exact ih (k + 1)
      · rw [if_neg h]
        exact ih k

theorem rebindFds_ok_count {sid : Nat} {oldLte : Option Nat} {nid base : Nat}
    {oks : List Bool} (hok : ∀ m, oks.getD m true = true) :
    ∀ (fds : List (Option WimlibFd)) (k : Nat),
      (rebindFds sid oldLte nid oks base fds k).2.1 = k + countStreamFds sid fds := by
  intro fds
  induction fds with
  | nil => intro k; simp [rebindFds, countStreamFds_nil]
  | cons slot rest ih =>
    intro k
    cases slot with
    | none =>
      simp only [rebindFds, countStreamFds_cons_none]
      exact ih k
    | some fd =>
      rw [countStreamFds_cons_some]
      by_cases h : fd.streamId = sid
      · simp only [rebindFds, if_pos h, hok k, if_true]
        rw [ih (k + 1)]
        omega
      · simp only [rebindFds, if_neg h]
        rw [ih k]
        omega

theorem rebindFds_ok_get_match {sid : Nat} {oldLte : Option Nat} {nid base : Nat}
    {oks : List Bool} (hok : ∀ m, oks.getD m true = true) :
    ∀ (fds : List (Option WimlibFd)) (k j : Nat) (fd : WimlibFd),
      fds.get? j = some (some fd) → fd.streamId = sid →
      ∃ m : Nat, (rebindFds sid oldLte nid oks base fds k).1.get? j =
        some (some { fd with fLte := some nid, stagingFd := ((base + m : Nat) : Int) }) := by
  intro fds
  induction fds with
  | nil => intro k j fd hget; simp at hget
  | cons slot rest ih =>
    intro k j fd hget hsid
    cases slot with
    | none =>
      cases j with
      | zero => simp at hget
      | succ j' =>
        simp only [List.get?] at hget
        simp only [rebindFds, List.get?]
        exact ih k j' fd hget hsid
    | some fd0 =>
      cases j with
      | zero =>
        simp only [List.get?] at hget
        cases hget
        simp only [rebindFds, if_pos hsid, hok k, if_true]
        exact ⟨k, rfl⟩
      | succ j' =>
        simp only [List.get?] at hget
        simp only [rebindFds]
        by_cases h : fd0.streamId = sid
        · rw [if_pos h, hok k]
          simp only [if_true, List.get?]
          exact ih (k + 1) j' fd hget hsid
        · rw [if_neg h]
          simp only [List.get?]
          exact ih k j' fd hget hsid

theorem rebindFds_ok_get_nonmatch {sid : Nat} {oldLte : Option Nat} {nid base : Nat}
    {oks : List Bool} (hok : ∀ m, oks.getD m true = true) :
    ∀ (fds : List (Option WimlibFd)) (k j : Nat) (s : Option WimlibFd),
      fds.get? j = some s → (∀ fd, s = some fd → fd.streamId ≠ sid) →
      (rebindFds sid oldLte nid oks base fds k).1.get? j = some s := by
  intro fds
  induction fds with
  | nil => intro k j s hget; simp at hget
  | cons slot rest ih =>
    intro k j s hget hns
    cases slot with
    | none =>
      cases j with
      | zero =>
        simp only [List.get?] at hget
        cases hget
        simp only [rebindFds, List.get?]
      | succ j' =>
        simp only [List.get?] at hget
        simp only [rebindFds, List.get?]
        exact ih k j' s hget hns
    | some fd0 =>
      cases j with
      | zero =>
        simp only [List.get?] at hget
        cases hget
        have h : fd0.streamId ≠ sid := hns fd0 rfl
        simp only [rebindFds, if_neg h, List.get?]
      | succ j' =>
        simp only [List.get?] at hget
        simp only [rebindFds]
        by_cases h : fd0.streamId = sid
        · rw [if_pos h, hok k]
          simp only [if_true, List.get?]
          exact ih (k + 1) j' s hget hns
        · rw [if_neg h]
          simp only [List.get?]
          exact ih k j' s hget hns

theorem revertFds_id {sid : Nat} {oldLte : Option Nat} {nid : Nat} :
    ∀ {fds : List (Option WimlibFd)},
      (∀ s ∈ fds, ∀ fd, s = some fd → fd.fLte ≠ some nid) →
      revertFds sid oldLte nid fds = fds
  | [], _ => rfl
  | none :: rest, h => by
    simp only [revertFds]
    rw [@revertFds_id sid oldLte nid rest (fun s hs => h s (List.mem_cons_of_mem _ hs))]
  | some fd :: rest, h => by
    have hne : ¬ (fd.streamId = sid ∧ fd.fLte = some nid) := by
      intro hcon
      exact h (some fd) (List.mem_cons_self _ _) fd rfl hcon.2
    simp only [revertFds, if_neg hne]
    rw [@revertFds_id sid oldLte nid rest (fun s hs => h s (List.mem_cons_of_mem _ hs))]

theorem revert_rebind_restore {sid : Nat} {oldLte : Option Nat} {nid base : Nat}
    {oks : List Bool} :
    ∀ (fds : List (Option WimlibFd)) (k : Nat),
      (∀ s ∈ fds, ∀ fd, s = some fd → fd.fLte ≠ some nid ∧
        (fd.streamId = sid → fd.fLte = oldLte ∧ fd.stagingFd = -1)) →
      revertFds sid oldLte nid (rebindFds sid oldLte nid oks base fds k).1 = fds := by
  intro fds
  induction fds with
  | nil => intro k _; rfl
  | cons slot rest ih =>
    intro k h
    have hrest : ∀ s ∈ rest, ∀ fd, s = some fd → fd.fLte ≠ some nid ∧
        (fd.streamId = sid → fd.fLte = oldLte ∧ fd.stagingFd = -1) :=
      fun s hs => h s (List.mem_cons_of_mem _ hs)
    cases slot with
    | none =>
      simp only [rebindFds, revertFds]
      rw [ih k hrest]
    | some fd =>
      have hfd := h (some fd) (List.mem_cons_self _ _) fd rfl
      by_cases hm : fd.streamId = sid
      · have hflte := (hfd.2 hm).1
        have hstag := (hfd.2 hm).2
        have hfdeq : ({ fd with fLte := oldLte, stagingFd := -1 } : WimlibFd) = fd := by
          cases fd
          simp_all
        by_cases hk : oks.getD k true = true
        · simp only [rebindFds, if_pos hm, hk, if_true, revertFds]
          rw [ih (k + 1) hrest]
          simp only [hm]
          cases fd
          simp_all
        · rw [Bool.not_eq_true] at hk
          simp only [rebindFds, if_pos hm, hk, Bool.false_eq_true, if_false, revertFds]
          rw [@revertFds_id sid oldLte nid rest (fun s hs fd2 hfd2 => (hrest s hs fd2 hfd2).1)]
          simp only [hm]
          cases fd
          simp_all
      · simp only [rebindFds, if_neg hm, revertFds]
        have hcond : ¬ (fd.streamId = sid ∧ fd.fLte = some nid) := fun hcon => hm hcon.1
        rw [if_neg hcond, ih k hrest]

/-!
## Claim theorems
-/

/-- C1: the invariant "every blob's `refcnt` equals the sum of
`link_count` over the inode-stream edges pointing at it" holds of the
mounted image but is broken by `wimfs_setxattr`: on an inode with three
hard links, attaching an ADS whose value hashes to an existing blob
increments that blob's `refcnt` by only 1 (mount_image.c line 2011)
instead of by the inode's link count, and a later writable open of that
ADS then reaches `extract_resource_to_staging_dir` with
`old_lte->refcnt` (2) not greater than `inode->link_count` (3), so the
code's own `wimlib_assert(old_lte->refcnt > inode->link_count)` at
mount_image.c line 518 fails. -/
theorem wimfs_setxattr_breaks_refcnt_invariant :
    blobRefInvariant linkedDemoState = true ∧
    (wimfs_setxattr linkedDemoState WIMLIB_MOUNT_FLAG_STREAM_INTERFACE_XATTR 1
        (userDot ++ [110]) [7] 0 5).1 = 0 ∧
    blobRefInvariant (wimfs_setxattr linkedDemoState
        WIMLIB_MOUNT_FLAG_STREAM_INTERFACE_XATTR 1 (userDot ++ [110]) [7] 0 5).2 = false ∧
    (extract_resource_to_staging_dir (wimfs_setxattr linkedDemoState
        WIMLIB_MOUNT_FLAG_STREAM_INTERFACE_XATTR 1 (userDot ++ [110]) [7] 0 5).2
        1 1 (some 1) 1 allOkEnv).assertsOk = false := by
  decide

/-- C2 counterexample: when the old descriptor's `refcnt` equals the
inode's link count, the staging of an already-open stream succeeds and the
old descriptor itself becomes the staged descriptor, but the handle that
was already open on the stream is NOT given its own scratch read fd — its
`staging_fd` stays `-1` (the rebind-with-`open` loop at mount_image.c
lines 541-557 runs only in the split branch). -/
theorem staging_reuse_no_scratch_fd_cex :
    (extract_resource_to_staging_dir reuseDemoState 1 0 (some 0) 1 allOkEnv).ret = 0 ∧
    (extract_resource_to_staging_dir reuseDemoState 1 0 (some 0) 1 allOkEnv).lte = some 0 ∧
    getEntry (extract_resource_to_staging_dir reuseDemoState 1 0 (some 0) 1 allOkEnv).st 0 =
      some ⟨0, .synthetic 999, 1, 1, true, some 1, .inStagingFile 100⟩ ∧
    (getInode (extract_resource_to_staging_dir reuseDemoState 1 0 (some 0) 1 allOkEnv).st 1).map
        Inode.fds = some [some ⟨0, some 0, -1⟩] := by
  decide

/-- C5 counterexample: on a read-only mount the daemon's
`UNMOUNT_REQUEST` handler never calls `delete_staging_dir` (the call at
mount_image.c line 1131 is guarded by `WIMLIB_MOUNT_FLAG_READWRITE`),
although the request is handled normally: `DAEMON_INFO` is sent and the
handler ends the daemon loop with `MSG_BREAK_LOOP`. -/
theorem unmount_request_readonly_no_delete_staging :
    (msg_unmount_request_handler 20 WIMLIB_UNMOUNT_FLAG_COMMIT
        WIMLIB_MOUNT_FLAG_STREAM_INTERFACE_XATTR ⟨true, 0, 0⟩).ranDeleteStaging = false ∧
    (msg_unmount_request_handler 20 WIMLIB_UNMOUNT_FLAG_COMMIT
        WIMLIB_MOUNT_FLAG_STREAM_INTERFACE_XATTR ⟨true, 0, 0⟩).sentDaemonInfo = true ∧
    (msg_unmount_request_handler 20 WIMLIB_UNMOUNT_FLAG_COMMIT
        WIMLIB_MOUNT_FLAG_STREAM_INTERFACE_XATTR ⟨true, 0, 0⟩).ret = MSG_BREAK_LOOP := by
  decide

/-- C6 counterexample: a receive timeout that arrives before any
`DAEMON_INFO` message makes the unmount command's loop fail with
`WIMLIB_ERR_FILESYSTEM_DAEMON_CRASHED` immediately
(`handler_ctx->unmount.daemon_pid == 0` at mount_image.c line 1172), even
though the daemon process is alive, and without probing any PID with
signal 0. -/
theorem unmount_timeout_alive_crashed_cex :
    (unmountMessageLoop [.timeout .alive] unmountLoopInit).ret =
      some WIMLIB_ERR_FILESYSTEM_DAEMON_CRASHED ∧
    (unmountMessageLoop [.timeout .alive] unmountLoopInit).probes = [] := by
  decide

/-- C8 counterexample: truncating an archive-backed one-byte stream to
size 1 — exactly its current size — is not a no-op: `wimfs_truncate`
calls `extract_resource_to_staging_dir` (mount_image.c line 2091), which
creates staging file 100 and converts the stream's descriptor to
`location = in_staging_file`. -/
theorem truncate_same_size_archive_stages_cex :
    wimfs_truncate truncDemoState 1 0 (some 0) 1 allOkEnv =
      .ok 0 { entries := [⟨0, .synthetic 999, 1, 0, true, some 1, .inStagingFile 100⟩],
              inodes := [⟨1, 1, some 0, [], []⟩],
              stagingFS := [(100, [9])], stagingList := [0] } ∧
    fsLookup { entries := [⟨0, .synthetic 999, 1, 0, true, some 1, .inStagingFile 100⟩],
               inodes := [⟨1, 1, some 0, [], []⟩],
               stagingFS := [(100, [9])], stagingList := [0] } 100 = some [9] := by
  decide

/-- C10: `wimfs_truncate` on a stream that resolved with no lookup table
entry and a nonzero size dereferences the null descriptor: the guard at
mount_image.c line 2075 covers only `size == 0`, and line 2084 then
evaluates `lte->resource_location` on the null pointer. -/
theorem wimfs_truncate_null_lte_deref :
    wimfs_truncate emptyStreamDemoState 1 0 none 1 allOkEnv = .nullDeref := by
  decide

/-- C7: reading through a handle whose blob lives in the archive rejects
an offset strictly past the blob length with `-EOVERFLOW`, otherwise
clips the requested size to `blob_len - offset`; in particular a read
spanning the end returns exactly the available suffix bytes
(mount_image.c lines 1771-1782). -/
theorem wimfs_read_archive_bounds (st : WimfsState) (f : WimlibFd) (eid : Nat)
    (e : LookupTableEntry) (c : List Nat) (size offset : Nat)
    (hf : f.fLte = some eid) (he : getEntry st eid = some e)
    (hloc : e.location = .inWim c) :
    (c.length < offset → (wimfs_read st (some f) size offset).1 = -EOVERFLOW) ∧
    (offset ≤ c.length →
      (wimfs_read st (some f) size offset).1 = ((min size (c.length - offset) : Nat) : Int)) ∧
    (offset ≤ c.length → c.length ≤ offset + size →
      wimfs_read st (some f) size offset =
        (((c.length - offset : Nat) : Int), c.drop offset)) := by
  simp only [wimfs_read, hf, he, hloc, resSizeOf, resContentOf]
  refine ⟨fun h => ?_, fun h => ?_, fun h1 h2 => ?_⟩
  · rw [if_pos (by omega : offset > c.length)]
  · rw [if_neg (by omega : ¬ offset > c.length)]
  · rw [if_neg (by omega : ¬ offset > c.length)]
    have hmin : min size (c.length - offset) = c.length - offset := by omega
    rw [hmin, ← List.length_drop, List.take_length]

/-- C7 witness: a concrete archive-backed read spanning the end of the
two-byte blob. -/
theorem wimfs_read_archive_bounds_witness :
    1 ≤ ([5, 6] : List Nat).length ∧
    ([5, 6] : List Nat).length ≤ 1 + 9 ∧
    wimfs_read truncDemoState2 (some ⟨0, some 0, -1⟩) 9 1 = ((1 : Int), [6]) :=
  ⟨by decide, by decide,
    by
      have h := (wimfs_read_archive_bounds truncDemoState2 ⟨0, some 0, -1⟩ 0
        ⟨0, .content [5, 6], 1, 0, true, none, .inWim [5, 6]⟩ [5, 6] 9 1 rfl (by decide) rfl).2.2
        (by decide) (by decide)
      simpa using h⟩

/-- C9: per-inode handle accounting of `alloc_wimlib_fd`: the cap is
65 535 handles, the slot array grows in chunks of `min(8, cap -
allocated)` and never past the cap, and an open attempted with all 65 535
slots allocated and occupied fails with `-EMFILE`. -/
theorem alloc_wimlib_fd_cap (numOpened numAllocated : Nat)
    (hfull : numOpened = numAllocated) :
    max_fds = 65535 ∧ fds_per_alloc = 8 ∧
    (numAllocated = max_fds →
      alloc_wimlib_fd numOpened numAllocated true true = ⟨-EMFILE, numOpened, numAllocated⟩) ∧
    (numAllocated < max_fds →
      alloc_wimlib_fd numOpened numAllocated true true =
        ⟨0, numOpened + 1, numAllocated + min fds_per_alloc (max_fds - numAllocated)⟩ ∧
      numAllocated + min fds_per_alloc (max_fds - numAllocated) ≤ max_fds) := by
  refine ⟨rfl, rfl, fun h => ?_, fun h => ⟨?_, ?_⟩⟩
  · simp [alloc_wimlib_fd, hfull, h]
  · simp [alloc_wimlib_fd, hfull, Nat.ne_of_lt h]
  · have hm : min fds_per_alloc (max_fds - numAllocated) ≤ max_fds - numAllocated :=
      Nat.min_le_right _ _
    omega

/-- C9 witness: the fully-occupied inode at the cap. -/
theorem alloc_wimlib_fd_cap_witness :
    alloc_wimlib_fd 65535 65535 true true = ⟨-EMFILE, 65535, 65535⟩ :=
  (alloc_wimlib_fd_cap 65535 65535 rfl).2.2.1 rfl

/-- C5 amended: for a well-formed `UNMOUNT_REQUEST` whose `DAEMON_INFO`
reply is sent successfully, the daemon runs the commit pipeline iff the
mount is read-write and `COMMIT` is set, runs `delete_staging_dir` iff
the mount is read-write (not always), surfaces a nonzero commit status
unchanged through `UNMOUNT_FINISHED` (staging-dir deletion errors do not
overwrite it), and exits its loop via `MSG_BREAK_LOOP`. -/
theorem unmount_request_handler_behavior (msgSize unmountFlags mountFlags : Nat)
    (env : UnmountReqEnv) (hsize : sizeof_msg_unmount_request ≤ msgSize)
    (hsend : env.sendInfoOk = true) :
    (msg_unmount_request_handler msgSize unmountFlags mountFlags env).sentDaemonInfo = true ∧
    ((msg_unmount_request_handler msgSize unmountFlags mountFlags env).ranCommit = true ↔
      (mountFlags &&& WIMLIB_MOUNT_FLAG_READWRITE ≠ 0 ∧
        unmountFlags &&& WIMLIB_UNMOUNT_FLAG_COMMIT ≠ 0)) ∧
    ((msg_unmount_request_handler msgSize unmountFlags mountFlags env).ranDeleteStaging = true ↔
      mountFlags &&& WIMLIB_MOUNT_FLAG_READWRITE ≠ 0) ∧
    (mountFlags &&& WIMLIB_MOUNT_FLAG_READWRITE ≠ 0 →
      unmountFlags &&& WIMLIB_UNMOUNT_FLAG_COMMIT ≠ 0 →
      env.rebuildRet ≠ 0 →
      (msg_unmount_request_handler msgSize unmountFlags mountFlags env).finishedStatus =
        env.rebuildRet) ∧
    (msg_unmount_request_handler msgSize unmountFlags mountFlags env).ret = MSG_BREAK_LOOP := by
  unfold msg_unmount_request_handler unmountRequestOut
  rw [if_neg (by omega : ¬ msgSize < sizeof_msg_unmount_request)]
  rw [if_neg (by simp [hsend] : ¬ ¬ env.sendInfoOk = true)]
  by_cases hc : (mountFlags &&& WIMLIB_MOUNT_FLAG_READWRITE ≠ 0 ∧
      unmountFlags &&& WIMLIB_UNMOUNT_FLAG_COMMIT ≠ 0)
  · rw [if_pos hc]
    refine ⟨rfl, by simp [hc], by simp [hc.1], fun _ _ hr => ?_, rfl⟩
    rw [if_neg (by simp [hr])]
  · rw [if_neg hc]
    refine ⟨rfl, by simp [hc], by simp, fun h1 h2 => absurd ⟨h1, h2⟩ hc, rfl⟩

/-- C5 witness: read-write commit whose `rebuild_wim` fails with 7 while
`delete_staging_dir` also fails with 9; 7 is surfaced. -/
theorem unmount_request_handler_behavior_witness :
    (msg_unmount_request_handler 20 WIMLIB_UNMOUNT_FLAG_COMMIT
        (WIMLIB_MOUNT_FLAG_READWRITE ||| WIMLIB_MOUNT_FLAG_STREAM_INTERFACE_XATTR)
        ⟨true, 7, 9⟩).finishedStatus = 7 :=
  (unmount_request_handler_behavior 20 WIMLIB_UNMOUNT_FLAG_COMMIT
    (WIMLIB_MOUNT_FLAG_READWRITE ||| WIMLIB_MOUNT_FLAG_STREAM_INTERFACE_XATTR)
    ⟨true, 7, 9⟩ (by decide) rfl).2.2.2.1 (by decide) (by decide) (by decide)

theorem unmountStep_next_timeout_one (s : ULoopState) (e : UEvent) (s' : ULoopState)
    (pr : List Nat) (hstep : unmountStep s e = (.next s', pr))
    (h1 : s.timeoutSeconds = 1) : s'.timeoutSeconds = 1 := by
  cases e with
  | timeout probe =>
    by_cases hp : s.daemonPid = 0
    · simp [unmountStep, hp] at hstep
    · cases probe <;> simp [unmountStep, hp] at hstep
      rw [← hstep.1, h1]
  | daemonInfo sizeOk pid mf =>
    cases sizeOk <;> simp [unmountStep] at hstep
    rw [← hstep.1]
  | unmountFinished sizeOk status =>
    cases sizeOk <;> simp [unmountStep] at hstep
  | versionTooHigh =>
    simp [unmountStep] at hstep
    rw [← hstep.1, h1]
  | badMessage =>
    simp [unmountStep] at hstep

theorem unmountLoop_waits_one :
    ∀ (es : List UEvent) (s : ULoopState), s.timeoutSeconds = 1 →
      ((unmountMessageLoop es s).waits.all (fun w => w = 1)) = true := by
  intro es
  induction es with
  | nil =>
    intro s h1
    simp [unmountMessageLoop]
  | cons e rest ih =>
    intro s h1
    unfold unmountMessageLoop
    cases hstep : unmountStep s e with
    | mk step pr =>
      cases step with
      | next s' =>
        simp only [List.all_cons, h1]
        rw [ih s' (unmountStep_next_timeout_one s e s' pr hstep h1)]
        simp
      | stop r s' =>
        simp [h1]

theorem unmountStep_stop_zero (s : ULoopState) (e : UEvent) (r : Int)
    (s' : ULoopState) (pr : List Nat)
    (hstep : unmountStep s e = (.stop r s', pr)) (hr : r = 0) :
    ∃ status, e = .unmountFinished true status ∧ s'.status = status := by
  subst hr
  cases e with
  | timeout probe =>
    by_cases hp : s.daemonPid = 0
    · simp [unmountStep, hp, WIMLIB_ERR_FILESYSTEM_DAEMON_CRASHED] at hstep
    · cases probe <;>
        simp [unmountStep, hp, WIMLIB_ERR_FILESYSTEM_DAEMON_CRASHED, WIMLIB_ERR_MQUEUE] at hstep
  | daemonInfo sizeOk pid mf =>
    cases sizeOk <;> simp [unmountStep, WIMLIB_ERR_INVALID_UNMOUNT_MESSAGE] at hstep
  | unmountFinished sizeOk status =>
    cases sizeOk <;> simp [unmountStep, WIMLIB_ERR_INVALID_UNMOUNT_MESSAGE] at hstep
    exact ⟨status, rfl, by rw [← hstep.1]⟩
  | versionTooHigh =>
    simp [unmountStep] at hstep
  | badMessage =>
    simp [unmountStep, WIMLIB_ERR_INVALID_UNMOUNT_MESSAGE] at hstep

theorem unmountLoop_ret_zero :
    ∀ (es : List UEvent) (s : ULoopState),
      (unmountMessageLoop es s).ret = some 0 →
      ∃ k status, es.get? k = some (.unmountFinished true status) ∧
        (unmountMessageLoop es s).state.status = status := by
  intro es
  induction es with
  | nil =>
    intro s h
    simp [unmountMessageLoop] at h
  | cons e rest ih =>
    intro s h
    cases hstep : unmountStep s e with
    | mk step pr =>
      cases step with
      | next s' =>
        simp only [unmountMessageLoop, hstep] at h ⊢
        obtain ⟨k, status, hk, hs⟩ := ih s' h
        exact ⟨k + 1, status, by simpa using hk, by simpa using hs⟩
      | stop r s' =>
        simp only [unmountMessageLoop, hstep] at h ⊢
        obtain ⟨status, he, hs⟩ := unmountStep_stop_zero s e r s' pr hstep (by simpa using h)
        exact ⟨0, status, by simp [he], by simpa using hs⟩

/-- C6 amended: in the unmount command's message loop (initial timeout
5 s), a well-formed `DAEMON_INFO` shortens the receive timeout to 1 s and
it stays 1 s thereafter; on a timeout after the daemon's PID is known the
PID is probed with signal 0 — alive keeps waiting, gone fails with
`DAEMON_CRASHED`; a timeout before any `DAEMON_INFO` fails with
`DAEMON_CRASHED` immediately and probes nothing; and the loop returns
success only when `UNMOUNT_FINISHED` arrives, whose carried status
becomes `wimlib_unmount_image`'s return value. -/
theorem unmount_loop_behavior :
    unmountLoopInit.timeoutSeconds = 5 ∧
    (∀ s pid mf, unmountStep s (.daemonInfo true pid mf) =
        (.next { s with daemonPid := pid, mountFlags := mf, timeoutSeconds := 1 }, [])) ∧
    (∀ s, s.daemonPid ≠ 0 →
      unmountStep s (.timeout .alive) = (.next s, [s.daemonPid]) ∧
      unmountStep s (.timeout .gone) =
        (.stop WIMLIB_ERR_FILESYSTEM_DAEMON_CRASHED s, [s.daemonPid])) ∧
    (∀ s, s.daemonPid = 0 →
      unmountStep s (.timeout .alive) =
        (.stop WIMLIB_ERR_FILESYSTEM_DAEMON_CRASHED s, [])) ∧
    (∀ es s, s.timeoutSeconds = 1 →
      ((unmountMessageLoop es s).waits.all (fun w => w = 1)) = true) ∧
    (∀ es, (unmountMessageLoop es unmountLoopInit).ret = some 0 →
      ∃ k status, es.get? k = some (.unmountFinished true status) ∧
        unmountImageResult es = some status) := by
  refine ⟨rfl, fun s pid mf => by simp [unmountStep],
    fun s hp => ⟨by simp [unmountStep, hp], by simp [unmountStep, hp]⟩,
    fun s hp => by simp [unmountStep, hp],
    unmountLoop_waits_one, fun es h => ?_⟩
  obtain ⟨k, status, hk, hs⟩ := unmountLoop_ret_zero es unmountLoopInit h
  refine ⟨k, status, hk, ?_⟩
  simp [unmountImageResult, h, hs]

/-- C6 witness: a trace where `DAEMON_INFO` arrives and then
`UNMOUNT_FINISHED(7)` ends the loop with status 7. -/
theorem unmount_loop_behavior_witness :
    (∃ k status,
      ([UEvent.daemonInfo true 42 1, UEvent.unmountFinished true 7]).get? k =
        some (.unmountFinished true status) ∧
      unmountImageResult [UEvent.daemonInfo true 42 1, UEvent.unmountFinished true 7] =
        some status) ∧
    unmountStep ⟨1, 42, 1, 0⟩ (.timeout .alive) = (.next ⟨1, 42, 1, 0⟩, [42]) :=
  ⟨unmount_loop_behavior.2.2.2.2.2 _ (by decide),
   (unmount_loop_behavior.2.2.1 ⟨1, 42, 1, 0⟩ (by decide)).1⟩

theorem rebindFds_ok_asserts {sid : Nat} {oldLte : Option Nat} {nid base : Nat}
    {oks : List Bool} (hok : ∀ m, oks.getD m true = true) :
    ∀ (fds : List (Option WimlibFd)) (k : Nat),
      (∀ s ∈ fds, ∀ fd, s = some fd → fd.streamId = sid →
        fd.fLte = oldLte ∧ fd.stagingFd = -1) →
      (rebindFds sid oldLte nid oks base fds k).2.2.2 = true := by
  intro fds
  induction fds with
  | nil => intro k _; rfl
  | cons slot rest ih =>
    intro k h
    have hrest : ∀ s ∈ rest, ∀ fd, s = some fd → fd.streamId = sid →
        fd.fLte = oldLte ∧ fd.stagingFd = -1 :=
      fun s hs => h s (List.mem_cons_of_mem _ hs)
    cases slot with
    | none =>
      simp only [rebindFds]
      exact ih k hrest
    | some fd =>
      by_cases hm : fd.streamId = sid
      · have hfd := h (some fd) (List.mem_cons_self _ _) fd rfl hm
        simp only [rebindFds, if_pos hm, hok k, if_true]
        rw [ih (k + 1) hrest]
        simp [hfd.1, hfd.2]
      · simp only [rebindFds, if_neg hm]
        exact ih k hrest

/-- The bytes `extract_resource_to_staging_dir` places in the scratch
file: up to `size` bytes of the old resource, zero-extended to `size`
when the resource is shorter (`ftruncate` at mount_image.c line 486). -/
def stagedBytes (st : WimfsState) (o : LookupTableEntry) (size : Nat) : List Nat :=
  (resContentOf st o).take (min (resSizeOf st o) size) ++
    List.replicate (size - min (resSizeOf st o) size) 0

/-- Computation of the staging layer's re-use branch (mount_image.c lines
502-510 and 566-582): when the old descriptor's refcount equals the
inode's link count it is unlinked from the index and converted in place
into the staged descriptor; no handle and no fd slot is touched. -/
theorem extract_reuse_case (st : WimfsState) (iid sid eid size : Nat) (env : StagingEnv)
    (ino : Inode) (o : LookupTableEntry)
    (hino : getInode st iid = some ino) (ho : getEntry st eid = some o)
    (hloc : ∀ nm, o.location ≠ .inStagingFile nm)
    (hcr : env.createOk = true) (hex : env.extractOk = true)
    (hlc : ino.linkCount = o.refcnt) :
    extract_resource_to_staging_dir st iid sid (some eid) size env =
      ⟨0,
        { setStreamPtr
            (updEntry { st with stagingFS :=
                st.stagingFS ++ [(env.stagingName, stagedBytes st o size)] }
              o.id (fun e =>
                { e with refcnt := ino.linkCount,
                         location := .inStagingFile env.stagingName,
                         lteInode := some iid,
                         hash := .synthetic env.synthHash,
                         inTable := true }))
            iid sid (some o.id) with
          stagingList := o.id :: st.stagingList },
        some o.id, true⟩ := by
  unfold extract_resource_to_staging_dir stagedBytes
  rw [hino]
  simp only [Option.bind, ho, hcr, hex, if_true, if_pos hlc]
  cases hl : o.location with
  | inStagingFile nm => exact absurd hl (hloc nm)
  | inWim bytes => rfl
  | inAttachedBuffer bytes => rfl
  | inFileOnDisk nm sz => rfl

/-- Computation of the staging layer's split branch (mount_image.c lines
511-564 plus the common tail): the old shared descriptor loses
`link_count` references and the rebound fd count, a fresh staged
descriptor with `refcnt = link_count` is inserted, and the handles open
on the stream are rebound with fresh scratch read fds. -/
theorem extract_split_case (st : WimfsState) (iid sid eid size : Nat) (env : StagingEnv)
    (ino : Inode) (o : LookupTableEntry)
    (hino : getInode st iid = some ino) (ho : getEntry st eid = some o)
    (hloc : ∀ nm, o.location ≠ .inStagingFile nm)
    (hcr : env.createOk = true) (hex : env.extractOk = true)
    (hnl : env.newLteOk = true) (hoks : ∀ m, env.openOk.getD m true = true)
    (hlc : ¬ ino.linkCount = o.refcnt) :
    extract_resource_to_staging_dir st iid sid (some eid) size env =
      (let st1 : WimfsState := { st with stagingFS :=
          st.stagingFS ++ [(env.stagingName, stagedBytes st o size)] }
       let r := rebindFds sid (some eid) env.newEntryId env.openOk env.fdBase ino.fds 0
       let st2 := updInode st1 iid (fun i => { i with fds := r.1 })
       let st3 := updEntry st2 o.id (fun e =>
          { e with numOpenedFds := e.numOpenedFds - r.2.1,
                   refcnt := e.refcnt - ino.linkCount })
       let st4 : WimfsState := { st3 with entries := st3.entries ++
          [{ id := env.newEntryId, hash := .synthetic env.synthHash,
             refcnt := ino.linkCount, numOpenedFds := r.2.1,
             inTable := true, lteInode := some iid,
             location := .inStagingFile env.stagingName }] }
       let st5 := setStreamPtr st4 iid sid (some env.newEntryId)
       ⟨0, { st5 with stagingList := env.newEntryId :: st5.stagingList },
        some env.newEntryId,
        decide (o.refcnt > ino.linkCount) &&
          (rebindFds sid (some eid) env.newEntryId env.openOk env.fdBase ino.fds 0).2.2.2⟩) := by
  have hnf := @rebindFds_ok_noFail sid (some eid) env.newEntryId env.fdBase
    env.openOk hoks ino.fds 0
  unfold extract_resource_to_staging_dir stagedBytes
  rw [hino]
  simp only [Option.bind, ho, hcr, hex, hnl, if_true, if_neg hlc, hnf,
    Bool.false_eq_true, if_false]
  cases hl : o.location with
  | inStagingFile nm => exact absurd hl (hloc nm)
  | inWim bytes => rfl
  | inAttachedBuffer bytes => rfl
  | inFileOnDisk nm sz => rfl

theorem fsLookup_of_append {st' : WimfsState} {fs : List (Nat × List Nat)} {name : Nat}
    {c : List Nat} (hfs : st'.stagingFS = fs ++ [(name, c)])
    (hfresh : ∀ p ∈ fs, p.1 ≠ name) : fsLookup st' name = some c := by
  unfold fsLookup
  rw [hfs, find?_fst_append_fresh hfresh]
  rfl

/-- C8 amended: `truncate` to the stream's current size is a no-op only
when the stream is already staged (the scratch file is truncated to its
own length, changing nothing) or when the stream is empty with no
descriptor and the size is 0; an archive-backed stream with a descriptor
is staged regardless — even a truncate to exactly the current size
creates a staging file. -/
theorem truncate_same_size_noop_cases (st : WimfsState) (iid sid : Nat) (env : StagingEnv) :
    (wimfs_truncate st iid sid none 0 env = .ok 0 st) ∧
    (∀ eid e name c, getEntry st eid = some e → e.location = .inStagingFile name →
      fsLookup st name = some c → (∀ p ∈ st.stagingFS, p.1 = name → p.2 = c) →
      wimfs_truncate st iid sid (some eid) c.length env = .ok 0 st) ∧
    (∀ eid e c ino, getEntry st eid = some e → e.location = .inWim c →
      getInode st iid = some ino → ino.linkCount = e.refcnt →
      env.createOk = true → env.extractOk = true →
      (∀ p ∈ st.stagingFS, p.1 ≠ env.stagingName) →
      ∃ st', wimfs_truncate st iid sid (some eid) c.length env = .ok 0 st' ∧
        fsLookup st' env.stagingName = some c) := by
  refine ⟨by simp [wimfs_truncate], ?_, ?_⟩
  · intro eid e name c he hloc hfs hkey
    unfold wimfs_truncate
    rw [if_neg (by simp)]
    simp only [he, hloc, hfs]
    rw [truncBytes_self, setFile_id hkey]
  · intro eid e c ino he hloc hino hlc hcr hex hfresh
    have hns : ∀ nm, e.location ≠ .inStagingFile nm := by
      intro nm hx
      rw [hloc] at hx
      cases hx
    have hx := extract_reuse_case st iid sid eid c.length env ino e hino he hns hcr hex hlc
    have hsb : stagedBytes st e c.length = c := by
      simp [stagedBytes, resContentOf, resSizeOf, hloc]
    unfold wimfs_truncate
    rw [if_neg (by simp)]
    simp only [he, hloc, hx]
    refine ⟨_, rfl, ?_⟩
    rw [show some c = some (stagedBytes st e c.length) by rw [hsb]]
    exact fsLookup_of_append rfl hfresh

/-- C8 witness: instantiation of the amended theorem at the staged and
archive cases on concrete states. -/
theorem truncate_same_size_noop_cases_witness :
    wimfs_truncate truncDemoState 1 0 none 0 allOkEnv = .ok 0 truncDemoState ∧
    (∃ st', wimfs_truncate truncDemoState 1 0 (some 0) 1 allOkEnv = .ok 0 st' ∧
      fsLookup st' 100 = some [9]) :=
  ⟨(truncate_same_size_noop_cases truncDemoState 1 0 allOkEnv).1,
   (truncate_same_size_noop_cases truncDemoState 1 0 allOkEnv).2.2 0
     ⟨0, .content [9], 1, 0, true, none, .inWim [9]⟩ [9] ⟨1, 1, some 0, [], []⟩
     (by decide) rfl (by decide) rfl rfl rfl (by decide)⟩

/-- C3: if staging a stream fails at any step — scratch-file creation,
extracting the blob (including the zero-extension and the close), the
allocation of the new descriptor, or the `open` of a scratch read fd for
an already-open handle — the call returns a negative error code and the
mount state is exactly as before: rebound handles are reverted, their
scratch fds closed, the new descriptor discarded, and the scratch file
unlinked.  The well-formedness hypotheses mirror the function's own
`wimlib_assert`s (handles on the stream observe the old descriptor and
hold no scratch fd) plus freshness of the random staging name and of the
new descriptor, and uniqueness of inode ids. -/
theorem extract_staging_failure_rollback (st : WimfsState) (iid sid : Nat)
    (oldLte : Option Nat) (size : Nat) (env : StagingEnv)
    (hname : ∀ p ∈ st.stagingFS, p.1 ≠ env.stagingName)
    (hiuniq : ∀ i1 ∈ st.inodes, ∀ i2 ∈ st.inodes, i1.id = i2.id → i1 = i2)
    (hfds : ∀ ino ∈ st.inodes, ino.id = iid →
      ∀ s ∈ ino.fds, ∀ fd, s = some fd → fd.fLte ≠ some env.newEntryId ∧
        (fd.streamId = sid → fd.fLte = oldLte ∧ fd.stagingFd = -1))
    (herr : 0 < env.createErrno ∧ 0 < env.extractErrno ∧ 0 < env.openErrno) :
    ((extract_resource_to_staging_dir st iid sid oldLte size env).ret < 0 →
      (extract_resource_to_staging_dir st iid sid oldLte size env).st = st ∧
      (extract_resource_to_staging_dir st iid sid oldLte size env).lte = oldLte) ∧
    ((extract_resource_to_staging_dir st iid sid oldLte size env).ret = 0 ∨
      (extract_resource_to_staging_dir st iid sid oldLte size env).ret < 0) ∧
    (¬ env.createOk = true →
      (extract_resource_to_staging_dir st iid sid oldLte size env).ret < 0) ∧
    (env.createOk = true → ¬ env.extractOk = true →
      (extract_resource_to_staging_dir st iid sid oldLte size env).ret < 0) := by
  obtain ⟨herr1, herr2, herr3⟩ := herr
  cases hino : getInode st iid with
  | none =>
    unfold extract_resource_to_staging_dir
    rw [hino]
    exact ⟨fun _ => ⟨rfl, rfl⟩, Or.inr (show (- EIO : Int) < 0 by decide),
      fun _ => show (- EIO : Int) < 0 by decide, fun _ _ => show (- EIO : Int) < 0 by decide⟩
  | some ino =>
    have hid := getInode_id hino
    have hmem := getInode_mem hino
    have hfds2 : ∀ s ∈ ino.fds, ∀ fd, s = some fd → fd.fLte ≠ some env.newEntryId ∧
        (fd.streamId = sid → fd.fLte = oldLte ∧ fd.stagingFd = -1) :=
      hfds ino hmem hid
    have huniq : ∀ i ∈ st.inodes, i.id = iid → i = ino := fun i hi hiid =>
      hiuniq i hi ino hmem (by rw [hiid, hid])
    have hmap : st.inodes.map
        (fun i => if i.id = iid then { i with fds := ino.fds } else i) = st.inodes := by
      apply list_map_id_of
      intro i hi
      by_cases hiid : i.id = iid
      · rw [if_pos hiid, huniq i hi hiid]
      · rw [if_neg hiid]
    have hrmv : ∀ c : List Nat,
        removeFile (st.stagingFS ++ [(env.stagingName, c)]) env.stagingName = st.stagingFS :=
      fun c => removeFile_append_fresh hname
    by_cases hcr : env.createOk = true
    · by_cases hex : env.extractOk = true
      · cases hold : oldLte.bind (getEntry st) with
        | some o =>
          by_cases hlc : ino.linkCount = o.refcnt
          · -- reuse branch: success, nothing to roll back
            refine ⟨fun h => ?_, Or.inl ?_, fun hc => absurd hcr hc, fun _ hx => absurd hex hx⟩
            · exfalso
              unfold extract_resource_to_staging_dir at h
              rw [hino] at h
              simp only [hold, hcr, hex, if_true, if_pos hlc] at h
              omega
            · unfold extract_resource_to_staging_dir
              rw [hino]
              simp only [hold, hcr, hex, if_true, if_pos hlc]
          · by_cases hnl : env.newLteOk = true
            · by_cases hfail :
                  (rebindFds sid oldLte env.newEntryId env.openOk env.fdBase ino.fds 0).2.2.1 = true
              · -- a scratch-fd open failed: full rollback
                have hrev : revertFds sid oldLte env.newEntryId
                    (rebindFds sid oldLte env.newEntryId env.openOk env.fdBase ino.fds 0).1 =
                      ino.fds :=
                  revert_rebind_restore ino.fds 0 hfds2
                refine ⟨fun _ => ⟨?_, ?_⟩, Or.inr ?_, fun hc => absurd hcr hc,
                  fun _ hx => absurd hex hx⟩
                · unfold extract_resource_to_staging_dir
                  rw [hino]
                  simp only [hold, hcr, hex, hnl, if_true, if_neg hlc, hfail, hrev, updInode]
                  rw [hmap, hrmv]
                · unfold extract_resource_to_staging_dir
                  rw [hino]
                  simp only [hold, hcr, hex, hnl, if_true, if_neg hlc, hfail]
                · unfold extract_resource_to_staging_dir
                  rw [hino]
                  simp only [hold, hcr, hex, hnl, if_true, if_neg hlc, hfail]
                  omega
              · -- every rebind open succeeded: success
                rw [Bool.not_eq_true] at hfail
                refine ⟨fun h => ?_, Or.inl ?_, fun hc => absurd hcr hc,
                  fun _ hx => absurd hex hx⟩
                · exfalso
                  unfold extract_resource_to_staging_dir at h
                  rw [hino] at h
                  simp only [hold, hcr, hex, hnl, if_true, if_neg hlc, hfail,
                    Bool.false_eq_true, if_false] at h
                  omega
                · unfold extract_resource_to_staging_dir
                  rw [hino]
                  simp only [hold, hcr, hex, hnl, if_true, if_neg hlc, hfail,
                    Bool.false_eq_true, if_false]
            · -- new_lookup_table_entry failed: staging file unlinked
              refine ⟨fun _ => ⟨?_, ?_⟩, Or.inr ?_, fun hc => absurd hcr hc,
                fun _ hx => absurd hex hx⟩
              · unfold extract_resource_to_staging_dir
                rw [hino]
                simp only [hold, hcr, hex, if_true, if_neg hlc, if_neg hnl]
                rw [hrmv]
              · unfold extract_resource_to_staging_dir
                rw [hino]
                simp only [hold, hcr, hex, if_true, if_neg hlc, if_neg hnl]
              · unfold extract_resource_to_staging_dir
                rw [hino]
                simp only [hold, hcr, hex, if_true, if_neg hlc, if_neg hnl]
                decide
        | none =>
          by_cases hnl : env.newLteOk = true
          · by_cases hfail :
                (rebindFds sid oldLte env.newEntryId env.openOk env.fdBase ino.fds 0).2.2.1 = true
            · have hrev : revertFds sid oldLte env.newEntryId
                  (rebindFds sid oldLte env.newEntryId env.openOk env.fdBase ino.fds 0).1 =
                    ino.fds :=
                revert_rebind_restore ino.fds 0 hfds2
              refine ⟨fun _ => ⟨?_, ?_⟩, Or.inr ?_, fun hc => absurd hcr hc,
                fun _ hx => absurd hex hx⟩
              · unfold extract_resource_to_staging_dir
                rw [hino]
                simp only [hold, hcr, hex, hnl, if_true, hfail, hrev, updInode]
                rw [hmap, hrmv]
              · unfold extract_resource_to_staging_dir
                rw [hino]
                simp only [hold, hcr, hex, hnl, if_true, hfail]
              · unfold extract_resource_to_staging_dir
                rw [hino]
                simp only [hold, hcr, hex, hnl, if_true, hfail]
                omega
            · rw [Bool.not_eq_true] at hfail
              refine ⟨fun h => ?_, Or.inl ?_, fun hc => absurd hcr hc,
                fun _ hx => absurd hex hx⟩
              · exfalso
                unfold extract_resource_to_staging_dir at h
                rw [hino] at h
                simp only [hold, hcr, hex, hnl, if_true, hfail,
                  Bool.false_eq_true, if_false] at h
                omega
              · unfold extract_resource_to_staging_dir
                rw [hino]
                simp only [hold, hcr, hex, hnl, if_true, hfail,
                  Bool.false_eq_true, if_false]
          · refine ⟨fun _ => ⟨?_, ?_⟩, Or.inr ?_, fun hc => absurd hcr hc,
              fun _ hx => absurd hex hx⟩
            · unfold extract_resource_to_staging_dir
              rw [hino]
              simp only [hold, hcr, hex, if_true, if_neg hnl]
              rw [hrmv]
            · unfold extract_resource_to_staging_dir
              rw [hino]
              simp only [hold, hcr, hex, if_true, if_neg hnl]
            · unfold extract_resource_to_staging_dir
              rw [hino]
              simp only [hold, hcr, hex, if_true, if_neg hnl]
              decide
      · -- extract/ftruncate/close failed: staging file unlinked again
        refine ⟨fun _ => ⟨?_, ?_⟩, Or.inr ?_, fun hc => absurd hcr hc, fun _ hx => ?_⟩
        · unfold extract_resource_to_staging_dir
          rw [hino]
          simp only [hcr, if_true, if_neg hex]
          rw [hrmv]
        · unfold extract_resource_to_staging_dir
          rw [hino]
          simp only [hcr, if_true, if_neg hex]
        · unfold extract_resource_to_staging_dir
          rw [hino]
          simp only [hcr, if_true, if_neg hex]
          omega
        · unfold extract_resource_to_staging_dir
          rw [hino]
          simp only [hcr, if_true, if_neg hex]
          omega
    · -- create_staging_file failed: nothing was mutated
      refine ⟨fun _ => ⟨?_, ?_⟩, Or.inr ?_, fun _ => ?_, fun h _ => absurd h hcr⟩ <;>
        (unfold extract_resource_to_staging_dir
         rw [hino]
         simp only [hcr, Bool.false_eq_true, if_false]) <;>
        first
        | rfl
        | omega

/-- C3 witness: a staging attempt on a shared blob whose single rebind
`open` fails; the state is returned unchanged. -/
theorem extract_staging_failure_rollback_witness :
    (extract_resource_to_staging_dir sharedFdDemoState 1 0 (some 0) 1 openFailEnv).ret < 0 ∧
    (extract_resource_to_staging_dir sharedFdDemoState 1 0 (some 0) 1 openFailEnv).st =
      sharedFdDemoState ∧
    (extract_resource_to_staging_dir sharedFdDemoState 1 0 (some 0) 1 openFailEnv).lte =
      some 0 :=
  have h := extract_staging_failure_rollback sharedFdDemoState 1 0 (some 0) 1 openFailEnv
    (by decide) (by decide) (by decide) (by decide)
  have hneg : (extract_resource_to_staging_dir sharedFdDemoState 1 0 (some 0) 1
      openFailEnv).ret < 0 := by decide
  ⟨hneg, (h.1 hneg).1, (h.1 hneg).2⟩

theorem getEntry_append_entries {st : WimfsState} {es : List LookupTableEntry} {j : Nat} :
    getEntry { st with entries := st.entries ++ es } j =
      ((getEntry st j).or (es.find? (fun e => e.id = j))) := by
  unfold getEntry
  simp [List.find?_append]

theorem find?_upd_self {l : List LookupTableEntry} {eid : Nat} {o : LookupTableEntry}
    (h : l.find? (fun e => e.id = eid) = some o)
    (f : LookupTableEntry → LookupTableEntry) (hf : ∀ x, (f x).id = x.id) :
    (l.map (fun e => if e.id = eid then f e else e)).find? (fun e => e.id = eid) =
      some (f o) :=
  @getEntry_updEntry_self ⟨l, [], [], []⟩ eid o h f hf

theorem find?_upd_ne {l : List LookupTableEntry} {eid j : Nat} (hj : j ≠ eid)
    (f : LookupTableEntry → LookupTableEntry) (hf : ∀ x, (f x).id = x.id) :
    (l.map (fun e => if e.id = eid then f e else e)).find? (fun e => e.id = j) =
      l.find? (fun e => e.id = j) :=
  @getEntry_updEntry_ne ⟨l, [], [], []⟩ eid j hj f hf

theorem find?_inode_upd_self {l : List Inode} {iid : Nat} {ino : Inode}
    (h : l.find? (fun i => i.id = iid) = some ino)
    (f : Inode → Inode) (hf : ∀ i, (f i).id = i.id) :
    (l.map (fun i => if i.id = iid then f i else i)).find? (fun i => i.id = iid) =
      some (f ino) :=
  @getInode_updInode_self ⟨[], l, [], []⟩ iid ino h f hf

theorem find?_inode_upd_ne {l : List Inode} {iid j : Nat} (hj : j ≠ iid)
    (f : Inode → Inode) (hf : ∀ i, (f i).id = i.id) :
    (l.map (fun i => if i.id = iid then f i else i)).find? (fun i => i.id = j) =
      l.find? (fun i => i.id = j) :=
  @getInode_updInode_ne ⟨[], l, [], []⟩ iid j hj f hf

theorem find?_filter_of_imp {α : Type} {p q : α → Bool} {l : List α}
    (h : ∀ x, p x = true → q x = true) :
    (l.filter q).find? p = l.find? p := by
  induction l with
  | nil => rfl
  | cons a l ih =>
    by_cases hq : q a = true
    · by_cases hp : p a = true
      · simp [List.filter, List.find?, hq, hp]
      · simp [List.filter, List.find?, hq, hp, ih]
    · have hp : ¬ p a = true := fun hp => hq (h a hp)
      simp [List.filter, List.find?, hq, hp, ih]

theorem find?_filter_none {α : Type} {p q : α → Bool} {l : List α}
    (h : ∀ x, p x = true → q x = false) :
    (l.filter q).find? p = none := by
  apply List.find?_eq_none.mpr
  intro x hx hp
  have h1 := h x hp
  have h2 := List.of_mem_filter hx
  rw [h1] at h2
  cases h2

/-- C2 amended: staging a stream whose archive-backed descriptor is shared
(`refcnt` strictly greater than the inode's link count) splits the blob:
the old descriptor stays in the store with `refcnt` lowered by exactly
`link_count` (and its open-fd count lowered by the number of rebound
handles), the new staged descriptor has `refcnt = link_count` and
`location = in_staging_file`, streams of other inodes are untouched, and a
read through any handle still observing the old descriptor returns the
original archive content; the handles of this inode open on the staged
stream are rebound to the new descriptor and each is given its own
scratch read fd.  When instead `refcnt` equals the link count, the old
descriptor itself is unlinked from the index and converted in place into
the staged descriptor (the handles keep referencing it because it is the
same descriptor), no new descriptor is created, and no handle acquires a
scratch read fd. -/
theorem extract_staging_split_and_reuse (st : WimfsState) (iid sid eid size : Nat)
    (env : StagingEnv) (ino : Inode) (o : LookupTableEntry) (c : List Nat)
    (hino : getInode st iid = some ino)
    (ho : getEntry st eid = some o)
    (hloc : o.location = .inWim c)
    (hcr : env.createOk = true) (hex : env.extractOk = true)
    (hnl : env.newLteOk = true) (hoks : env.openOk = [])
    (hfresh : ∀ x ∈ st.entries, x.id ≠ env.newEntryId)
    (hfds : ∀ s ∈ ino.fds, ∀ fd, s = some fd → fd.streamId = sid →
      fd.fLte = some eid ∧ fd.stagingFd = -1) :
    (ino.linkCount < o.refcnt →
      (extract_resource_to_staging_dir st iid sid (some eid) size env).ret = 0 ∧
      (extract_resource_to_staging_dir st iid sid (some eid) size env).lte =
        some env.newEntryId ∧
      (extract_resource_to_staging_dir st iid sid (some eid) size env).assertsOk = true ∧
      getEntry (extract_resource_to_staging_dir st iid sid (some eid) size env).st eid =
        some { o with numOpenedFds := o.numOpenedFds - countStreamFds sid ino.fds,
                      refcnt := o.refcnt - ino.linkCount } ∧
      getEntry (extract_resource_to_staging_dir st iid sid (some eid) size env).st
          env.newEntryId =
        some ⟨env.newEntryId, .synthetic env.synthHash, ino.linkCount,
          countStreamFds sid ino.fds, true, some iid, .inStagingFile env.stagingName⟩ ∧
      (∀ j, j ≠ iid →
        getInode (extract_resource_to_staging_dir st iid sid (some eid) size env).st j =
          getInode st j) ∧
      (∀ f : WimlibFd, f.fLte = some eid → ∀ sz off,
        wimfs_read (extract_resource_to_staging_dir st iid sid (some eid) size env).st
            (some f) sz off =
          wimfs_read st (some f) sz off) ∧
      (∃ fds', (getInode (extract_resource_to_staging_dir st iid sid (some eid) size
            env).st iid).map Inode.fds = some fds' ∧
        (∀ j fd, ino.fds.get? j = some (some fd) → fd.streamId = sid →
          ∃ m : Nat, fds'.get? j = some (some
            { fd with fLte := some env.newEntryId, stagingFd := ((env.fdBase + m : Nat) : Int) })) ∧
        (∀ j s, ino.fds.get? j = some s → (∀ fd, s = some fd → fd.streamId ≠ sid) →
          fds'.get? j = some s))) ∧
    (ino.linkCount = o.refcnt →
      (extract_resource_to_staging_dir st iid sid (some eid) size env).ret = 0 ∧
      (extract_resource_to_staging_dir st iid sid (some eid) size env).lte = some eid ∧
      (extract_resource_to_staging_dir st iid sid (some eid) size env).assertsOk = true ∧
      getEntry (extract_resource_to_staging_dir st iid sid (some eid) size env).st eid =
        some { o with refcnt := ino.linkCount,
                      location := .inStagingFile env.stagingName,
                      lteInode := some iid, hash := .synthetic env.synthHash,
                      inTable := true } ∧
      getEntry (extract_resource_to_staging_dir st iid sid (some eid) size env).st
          env.newEntryId = none ∧
      (getInode (extract_resource_to_staging_dir st iid sid (some eid) size env).st
          iid).map Inode.fds = some ino.fds) := by
  have hid := getEntry_id ho
  have hmemE := getEntry_mem ho
  have hnid : eid ≠ env.newEntryId := by
    rw [← hid]
    exact hfresh o hmemE
  have hfreshL : ∀ x ∈ st.entries, ¬ decide (x.id = env.newEntryId) = true := by
    intro x hx
    simpa using hfresh x hx
  have hns : ∀ nm, o.location ≠ .inStagingFile nm := by
    intro nm hx
    rw [hloc] at hx
    cases hx
  have hoks2 : ∀ m, env.openOk.getD m true = true := by
    intro m
    rw [hoks]
    cases m <;> rfl
  have hoList : st.entries.find? (fun e => e.id = eid) = some o := ho
  have hinoList : st.inodes.find? (fun i => i.id = iid) = some ino := hino
  constructor
  · -- split case
    intro hshared
    have hlcne : ¬ ino.linkCount = o.refcnt := by omega
    have hsplit := extract_split_case st iid sid eid size env ino o hino ho hns hcr hex
      hnl hoks2 hlcne
    rw [hid] at hsplit
    have hcnt : (rebindFds sid (some eid) env.newEntryId env.openOk env.fdBase
        ino.fds 0).2.1 = countStreamFds sid ino.fds :=
      (rebindFds_ok_count hoks2 ino.fds 0).trans (Nat.zero_add _)
    have hEold : getEntry (extract_resource_to_staging_dir st iid sid (some eid) size
        env).st eid = some { o with
          numOpenedFds := o.numOpenedFds - countStreamFds sid ino.fds,
          refcnt := o.refcnt - ino.linkCount } := by
      rw [hsplit]
      simp only [updEntry, updInode, setStreamPtr]
      unfold getEntry
      simp only [List.find?_append]
      rw [find?_upd_self hoList]
      · rw [hcnt]
        exact rfl
      · intro x
        rfl
    have hEnew : getEntry (extract_resource_to_staging_dir st iid sid (some eid) size
        env).st env.newEntryId =
        some ⟨env.newEntryId, .synthetic env.synthHash, ino.linkCount,
          countStreamFds sid ino.fds, true, some iid, .inStagingFile env.stagingName⟩ := by
      rw [hsplit]
      simp only [updEntry, updInode, setStreamPtr]
      unfold getEntry
      simp only [List.find?_append]
      rw [find?_upd_ne (Ne.symm hnid)]
      · rw [List.find?_eq_none.mpr hfreshL]
        simp [hcnt]
      · intro x
        rfl
    refine ⟨?_, ?_, ?_, hEold, hEnew, ?_, ?_, ?_⟩
    · rw [hsplit]
    · rw [hsplit]
    · rw [hsplit]
      show (decide (o.refcnt > ino.linkCount) &&
        (rebindFds sid (some eid) env.newEntryId env.openOk env.fdBase
          ino.fds 0).2.2.2) = true
      rw [rebindFds_ok_asserts hoks2 ino.fds 0 hfds]
      simp [hshared]
    · -- streams of other inodes are untouched
      intro j hj
      rw [hsplit]
      simp only [updEntry, updInode, setStreamPtr]
      unfold getInode
      show List.find? _ (List.map _ (List.map _ _)) = _
      rw [find?_inode_upd_ne hj]
      · rw [find?_inode_upd_ne hj]
        intro i
        rfl
      · intro i
        by_cases h0 : sid = 0 <;> simp [h0]
    · -- reads through the old descriptor are unchanged
      intro f hf sz off
      unfold wimfs_read
      simp only [hf, hEold, ho, hloc, resSizeOf, resContentOf]
    · -- handles on the stream are rebound with fresh scratch read fds
      refine ⟨(rebindFds sid (some eid) env.newEntryId env.openOk env.fdBase
        ino.fds 0).1, ?_, ?_, ?_⟩
      · rw [hsplit]
        simp only [updEntry, updInode, setStreamPtr]
        unfold getInode
        have hfds1 : (st.inodes.map (fun i => if i.id = iid then
            { i with fds := (rebindFds sid (some eid) env.newEntryId env.openOk
              env.fdBase ino.fds 0).1 } else i)).find? (fun i => i.id = iid) =
            some { ino with fds := (rebindFds sid (some eid) env.newEntryId
              env.openOk env.fdBase ino.fds 0).1 } :=
          find?_inode_upd_self hinoList _ (fun i => rfl)
        show (Option.map _ (List.find? _ (List.map _ (List.map _ _)))) = _
        rw [find?_inode_upd_self hfds1]
        · by_cases h0 : sid = 0 <;> simp [h0]
        · intro i
          by_cases h0 : sid = 0 <;> simp [h0]
      · intro j fd hget hsid
        exact rebindFds_ok_get_match hoks2 ino.fds 0 j fd hget hsid
      · intro j s hget hns2
        exact rebindFds_ok_get_nonmatch hoks2 ino.fds 0 j s hget hns2
  · -- reuse case
    intro hsame
    have hreuse := extract_reuse_case st iid sid eid size env ino o hino ho hns hcr hex hsame
    rw [hid] at hreuse
    refine ⟨?_, ?_, ?_, ?_, ?_, ?_⟩
    · rw [hreuse]
    · rw [hreuse]
    · rw [hreuse]
    · rw [hreuse]
      simp only [updEntry, setStreamPtr, updInode]
      unfold getEntry
      show List.find? _ (List.map _ _) = _
      rw [find?_upd_self hoList]
      intro x
      rfl
    · rw [hreuse]
      simp only [updEntry, setStreamPtr, updInode]
      unfold getEntry
      show List.find? _ (List.map _ _) = _
      rw [find?_upd_ne (Ne.symm hnid)]
      · exact List.find?_eq_none.mpr hfreshL
      · intro x
        rfl
    · rw [hreuse]
      simp only [updEntry, setStreamPtr, updInode]
      unfold getInode
      show (Option.map _ (List.find? _ (List.map _ _))) = _
      rw [find?_inode_upd_self hinoList]
      · by_cases h0 : sid = 0 <;> simp [h0]
      · intro i
        by_cases h0 : sid = 0 <;> simp [h0]


/-- Witness for the amended C2 statement: in `sharedFdDemoState` the
shared archived blob 0 (`refcnt = 2`, one link on inode 1, one open
handle) is split: the old descriptor drops to `refcnt = 1` and the new
staged descriptor 50 carries the handle. -/
theorem extract_staging_split_and_reuse_witness :
    getInode sharedFdDemoState 1 = some ⟨1, 1, some 0, [], [some ⟨0, some 0, -1⟩]⟩ ∧
    getEntry sharedFdDemoState 0 = some ⟨0, .content [5], 2, 0, true, none, .inWim [5]⟩ ∧
    (extract_resource_to_staging_dir sharedFdDemoState 1 0 (some 0) 1 allOkEnv).ret = 0 ∧
    getEntry (extract_resource_to_staging_dir sharedFdDemoState 1 0 (some 0) 1
        allOkEnv).st 0 = some ⟨0, .content [5], 1, 0, true, none, .inWim [5]⟩ ∧
    getEntry (extract_resource_to_staging_dir sharedFdDemoState 1 0 (some 0) 1
        allOkEnv).st 50 =
      some ⟨50, .synthetic 999, 1, 1, true, some 1, .inStagingFile 100⟩ :=
  have h := extract_staging_split_and_reuse sharedFdDemoState 1 0 0 1 allOkEnv
    ⟨1, 1, some 0, [], [some ⟨0, some 0, -1⟩]⟩
    ⟨0, .content [5], 2, 0, true, none, .inWim [5]⟩ [5]
    (by decide) (by decide) rfl rfl rfl rfl rfl (by decide)
    (by
      intro s hs fd hfd hsid
      simp only [sharedFdDemoState, List.mem_singleton] at hs
      subst hs
      injection hfd with h2
      subst h2
      exact ⟨rfl, rfl⟩)
  have hs := h.1 (by decide)
  ⟨by decide, by decide, hs.1, hs.2.2.2.1, hs.2.2.2.2.1⟩


/-- C4: the rehash step `update_lte_of_staging_file` on a staged blob.
If a descriptor with the scratch file's digest is already linked in the
index, the staged refcount is added to it, the owning inode's stream
pointer is rewritten to it, and the staged descriptor is discarded; if
the scratch file is empty, the stream is detached (no blob) and the
staged descriptor discarded; otherwise the staged descriptor is re-keyed
under the real digest with `location = in_file_on_disk` and the file
size recorded. -/
theorem update_lte_of_staging_file_rehash (st : WimfsState) (eid iid : Nat)
    (lte : LookupTableEntry) (ino : Inode) (name : Nat) (bytes : List Nat)
    (hl : getEntry st eid = some lte)
    (hloc : lte.location = .inStagingFile name)
    (hfs : fsLookup st name = some bytes)
    (hown : lte.lteInode = some iid)
    (hino : getInode st iid = some ino) :
    (∀ dup, lookupResource (updEntry st eid (fun e => { e with inTable := false }))
          (Hash.content bytes) = some dup →
        dup.id ≠ eid → getEntry st dup.id = some dup →
      (update_lte_of_staging_file st eid).1 = 0 ∧
      getEntry (update_lte_of_staging_file st eid).2 dup.id =
        some { dup with refcnt := dup.refcnt + lte.refcnt } ∧
      getEntry (update_lte_of_staging_file st eid).2 eid = none ∧
      getInode (update_lte_of_staging_file st eid).2 iid =
        some (if ino.lte = some eid then { ino with lte := some dup.id }
          else { ino with ads := replaceFirstAds ino.ads eid (some dup.id) })) ∧
    (lookupResource (updEntry st eid (fun e => { e with inTable := false }))
          (Hash.content bytes) = none → bytes = [] →
      (update_lte_of_staging_file st eid).1 = 0 ∧
      getEntry (update_lte_of_staging_file st eid).2 eid = none ∧
      getInode (update_lte_of_staging_file st eid).2 iid =
        some (if ino.lte = some eid then { ino with lte := none }
          else { ino with ads := replaceFirstAds ino.ads eid none })) ∧
    (lookupResource (updEntry st eid (fun e => { e with inTable := false }))
          (Hash.content bytes) = none → bytes ≠ [] →
      (update_lte_of_staging_file st eid).1 = 0 ∧
      getEntry (update_lte_of_staging_file st eid).2 eid =
        some { lte with hash := Hash.content bytes,
                        location := .inFileOnDisk name bytes.length,
                        inTable := true }) := by
  have hoList0 : st.entries.find? (fun e => e.id = eid) = some lte := hl
  have hinoList : st.inodes.find? (fun i => i.id = iid) = some ino := hino
  refine ⟨?_, ?_, ?_⟩
  · -- merge with an existing descriptor of the same digest
    intro dup hdup hdne hdg
    have hdg1 : (st.entries.map (fun e => if e.id = eid then
        { e with inTable := false } else e)).find? (fun e => e.id = dup.id) =
        some dup := by
      rw [find?_upd_ne hdne]
      · exact hdg
      · intro x
        rfl
    refine ⟨?_, ?_, ?_, ?_⟩
    · simp only [update_lte_of_staging_file, hl, hloc, hfs, hdup]
    · simp only [update_lte_of_staging_file, hl, hloc, hfs, hdup]
      simp only [hown, inode_update_lte_ptr, updEntry, updInode]
      unfold getEntry
      show List.find? _ (List.filter _ _) = _
      rw [find?_filter_of_imp]
      · show List.find? _ (List.map _ (List.map _ _)) = _
        rw [find?_upd_self hdg1]
        intro x
        rfl
      · intro x hx
        simp only [decide_eq_true_eq] at hx
        simp [hx, hdne]
    · simp only [update_lte_of_staging_file, hl, hloc, hfs, hdup]
      simp only [hown, inode_update_lte_ptr, updEntry, updInode]
      unfold getEntry
      show List.find? _ (List.filter _ _) = _
      rw [find?_filter_none]
      intro x hx
      simp only [decide_eq_true_eq] at hx
      simp [hx]
    · simp only [update_lte_of_staging_file, hl, hloc, hfs, hdup]
      simp only [hown, inode_update_lte_ptr, updEntry, updInode]
      unfold getInode
      show List.find? _ (List.map _ _) = _
      rw [find?_inode_upd_self hinoList]
      intro i
      by_cases h0 : i.lte = some eid <;> simp [h0]
  · -- empty scratch file: detach the stream
    intro hdup hb
    subst hb
    refine ⟨?_, ?_, ?_⟩
    · simp [update_lte_of_staging_file, hl, hloc, hfs, hdup, hown,
        inode_update_lte_ptr]
    · simp only [update_lte_of_staging_file, hl, hloc, hfs, hdup]
      simp only [hown, inode_update_lte_ptr, updEntry, updInode, List.length_nil,
        reduceIte]
      unfold getEntry
      show List.find? _ (List.filter _ _) = _
      rw [find?_filter_none]
      intro x hx
      simp only [decide_eq_true_eq] at hx
      simp [hx]
    · simp only [update_lte_of_staging_file, hl, hloc, hfs, hdup]
      simp only [hown, inode_update_lte_ptr, updEntry, updInode, List.length_nil,
        reduceIte]
      unfold getInode
      show List.find? _ (List.map _ _) = _
      rw [find?_inode_upd_self hinoList]
      intro i
      by_cases h0 : i.lte = some eid <;> simp [h0]
  · -- re-key under the real digest
    intro hdup hb
    have hlen : ¬ bytes.length = 0 := by
      simpa [List.length_eq_zero] using hb
    have h1 : (st.entries.map (fun e => if e.id = eid then
        { e with inTable := false } else e)).find? (fun e => e.id = eid) =
        some { lte with inTable := false } := by
      rw [find?_upd_self hoList0]
      intro x
      rfl
    refine ⟨?_, ?_⟩
    · simp only [update_lte_of_staging_file, hl, hloc, hfs, hdup, if_neg hlen]
    · simp only [update_lte_of_staging_file, hl, hloc, hfs, hdup]
      simp only [if_neg hlen, updEntry]
      unfold getEntry
      show List.find? _ (List.map _ (List.map _ _)) = _
      rw [find?_upd_self h1]
      intro x
      rfl

/-- Witness: in `stagedDemoState` the staged descriptor 1 collides with
the archived descriptor 0 (same digest), so the rehash merges them:
descriptor 0 ends with `refcnt = 2`, descriptor 1 is gone, and inode 1's
unnamed stream points at descriptor 0. -/
theorem update_lte_of_staging_file_rehash_witness :
    getEntry stagedDemoState 1 =
      some ⟨1, .synthetic 999, 1, 0, true, some 1, .inStagingFile 100⟩ ∧
    (update_lte_of_staging_file stagedDemoState 1).1 = 0 ∧
    getEntry (update_lte_of_staging_file stagedDemoState 1).2 0 =
      some ⟨0, .content [7], 2, 0, true, none, .inWim [7]⟩ ∧
    getEntry (update_lte_of_staging_file stagedDemoState 1).2 1 = none ∧
    getInode (update_lte_of_staging_file stagedDemoState 1).2 1 =
      some ⟨1, 1, some 0, [], []⟩ :=
  have h := update_lte_of_staging_file_rehash stagedDemoState 1 1
    ⟨1, .synthetic 999, 1, 0, true, some 1, .inStagingFile 100⟩
    ⟨1, 1, some 1, [], []⟩ 100 [7]
    (by decide) rfl (by decide) rfl (by decide)
  have hm := h.1 ⟨0, .content [7], 1, 0, true, none, .inWim [7]⟩
    (by decide) (by decide) (by decide)
  ⟨by decide, hm.1, hm.2.1, hm.2.2.1, hm.2.2.2⟩

end Wimfs
